import Mathlib

/-!
Shallow embedding of the HaruQuantCBot backtesting core (C++ sources under
`src/cpp`) together with proofs about its specified behaviour.

Modelling conventions:
* C++ `int64_t` values are modelled as `ℤ` (the sources treat overflow as a
  bug, so claims are about the non-overflowing regime).
* C++ `double` values are modelled as `ℚ`; `static_cast<int64_t>` of a
  `double` is truncation toward zero, modelled by `qtrunc`.
* `std::unordered_map` is modelled as an association list with distinct keys;
  `std::vector` as a `List`.
* Fallible operations return `Except`/`Option`; C++ exceptions become
  `Except.error` values.
-/

namespace HQT

/-- Decidable equality of `Except` results (needed to evaluate the embedded
fallible operations inside proofs). -/
instance {e a : Type} [DecidableEq e] [DecidableEq a] : DecidableEq (Except e a) :=
  fun x y =>
    match x, y with
    | Except.ok u, Except.ok v =>
        if h : u = v then isTrue (congrArg Except.ok h)
        else isFalse (fun hc => h (Except.ok.inj hc))
    | Except.error u, Except.error v =>
        if h : u = v then isTrue (congrArg Except.error h)
        else isFalse (fun hc => h (Except.error.inj hc))
    | Except.ok _, Except.error _ => isFalse (fun hc => Except.noConfusion hc)
    | Except.error _, Except.ok _ => isFalse (fun hc => Except.noConfusion hc)

/-- Truncation toward zero of a rational, the semantics of C++
`static_cast<int64_t>(double)` (for values in range). -/
def qtrunc (q : ℚ) : ℤ :=
  q.num.tdiv (q.den : ℤ)

/-- `pow(10.0, d)` for an integer exponent, as an exact rational. -/
def pow10 (d : ℤ) : ℚ :=
  if 0 ≤ d then ((10 : ℚ) ^ d.toNat) else 1 / ((10 : ℚ) ^ (-d).toNat)

/-! ## util/fixed_point.hpp -/

namespace FixedPoint

/-- `FixedPoint::divide_int` (fixed_point.hpp lines 142-150): divide a
fixed-point value by an integer with half-divisor rounding; division by zero
returns 0. C++ integer division truncates toward zero (`Int.tdiv`). -/
def divide_int (fixed_value divisor : ℤ) : ℤ :=
  if divisor = 0 then 0
  else
    let adjustment := divisor.tdiv 2
    let adjustment :=
      if decide (fixed_value < 0) ≠ decide (divisor < 0) then -adjustment else adjustment
    (fixed_value + adjustment).tdiv divisor

/-- The numerator scaling performed by `FixedPoint::divide` before the
division: multiply by `10^scale_diff` when positive, integer-divide by
`10^(-scale_diff)` when negative. -/
def scale_numerator (a scale_diff : ℤ) : ℤ :=
  if 0 < scale_diff then a * (10 : ℤ) ^ scale_diff.toNat
  else if scale_diff < 0 then a.tdiv ((10 : ℤ) ^ (-scale_diff).toNat)
  else a

/-- `FixedPoint::divide` (fixed_point.hpp lines 161-190): divide two
fixed-point values with digit-aware scaling of the numerator and
half-divisor rounding; division by zero returns 0. -/
def divide (a b digits_a digits_b result_digits : ℤ) : ℤ :=
  if b = 0 then 0
  else
    let scale_diff := result_digits - digits_a + digits_b
    let scaled_a := scale_numerator a scale_diff
    let adjustment := b.tdiv 2
    let adjustment :=
      if decide (scaled_a < 0) ≠ decide (b < 0) then -adjustment else adjustment
    (scaled_a + adjustment).tdiv b

end FixedPoint

/-! ## core/global_clock.hpp -/

namespace GlobalClock

/-- `INT64_MAX`, the seed of the running minimum in `can_advance`. -/
def INT64_MAX : ℤ := 2 ^ 63 - 1

/-- The per-symbol timestamp map `symbol_timestamps_` of `GlobalClock`,
modelled as an association list with distinct symbol ids. -/
abbrev TimestampMap := List (ℕ × ℤ)

/-- The fold in `GlobalClock::can_advance` (global_clock.hpp lines 125-131):
minimum timestamp over entries whose id differs from `symbol_id`, starting
from `INT64_MAX`. -/
def min_excluding (m : TimestampMap) (symbol_id : ℕ) : ℤ :=
  m.foldl (fun acc p => if p.1 ≠ symbol_id then min acc p.2 else acc) INT64_MAX

/-- `GlobalClock::can_advance` (global_clock.hpp lines 116-135). -/
def can_advance (m : TimestampMap) (symbol_id : ℕ) (target_timestamp : ℤ) : Bool :=
  if m.length ≤ 1 then true
  else decide (target_timestamp ≤ min_excluding m symbol_id)

/-- `GlobalClock::update_symbol`: install or overwrite the entry for the id
(map insert-or-assign semantics). -/
def update_symbol (m : TimestampMap) (symbol_id : ℕ) (timestamp : ℤ) : TimestampMap :=
  if m.any (fun p => p.1 = symbol_id) then
    m.map (fun p => if p.1 = symbol_id then (symbol_id, timestamp) else p)
  else m ++ [(symbol_id, timestamp)]

end GlobalClock

/-! ## util/currency_converter.hpp -/

namespace Currency

/-- Error kind of `ConversionPathError`. -/
inductive ConvErr
  | noPath
  | pathValidation
  deriving DecidableEq, Repr

/-- `CurrencyPair` (currency_converter.hpp lines 32-49). -/
structure CurrencyPair where
  base : String
  quote : String
  rate : ℚ
  timestamp_us : ℤ
  deriving DecidableEq, Repr

/-- Pair identifier "BASE/QUOTE". -/
def pairKey (base quote : String) : String := base ++ "/" ++ quote

/-- `CurrencyConverter` state: `pairs_` keyed by "BASE/QUOTE" and the
adjacency list `graph_` (insertion-ordered, set semantics per key). -/
structure CurrencyConverter where
  pairs : List (String × CurrencyPair)
  graph : List (String × List String)
  deriving DecidableEq, Repr

/-- Insert-or-assign into an association list keyed by `String`. -/
def assocInsert (l : List (String × CurrencyPair)) (k : String) (v : CurrencyPair) :
    List (String × CurrencyPair) :=
  if l.any (fun p => p.1 = k) then l.map (fun p => if p.1 = k then (k, v) else p)
  else l ++ [(k, v)]

/-- `graph_[base].insert(quote)`: add `v` to the neighbor set of `k`. -/
def graphInsert (g : List (String × List String)) (k v : String) :
    List (String × List String) :=
  if g.any (fun p => p.1 = k) then
    g.map (fun p => if p.1 = k then (p.1, if v ∈ p.2 then p.2 else p.2 ++ [v]) else p)
  else g ++ [(k, [v])]

/-- `CurrencyConverter::register_pair` (currency_converter.hpp lines 84-94). -/
def register_pair (c : CurrencyConverter) (base quote : String) (rate : ℚ)
    (timestamp_us : ℤ := 0) : CurrencyConverter :=
  { pairs := assocInsert c.pairs (pairKey base quote) ⟨base, quote, rate, timestamp_us⟩
    graph := graphInsert (graphInsert c.graph base quote) quote base }

/-- Path reconstruction loop of `find_path` (currency_converter.hpp lines
245-253): follow `parent` links from `to` until the empty-string sentinel,
building the path front-to-back. -/
def reconstruct : ℕ → List (String × String) → String → List String
  | 0, _, _ => []
  | fuel + 1, parent, node =>
      if node = "" then []
      else reconstruct fuel parent ((parent.lookup node).getD "") ++ [node]

/-- Neighbor-visiting step of the BFS: for each unvisited neighbor record the
parent and enqueue it (currency_converter.hpp lines 257-266). -/
def visitNeighbors : List String → String → List String → List (String × String) →
    List String → List String × List (String × String) × List String
  | [], _, visited, parent, queue => (visited, parent, queue)
  | nb :: rest, current, visited, parent, queue =>
      if nb ∈ visited then visitNeighbors rest current visited parent queue
      else visitNeighbors rest current (visited ++ [nb]) (parent ++ [(nb, current)])
        (queue ++ [nb])

/-- BFS loop of `find_path` (currency_converter.hpp lines 240-267), with fuel
bounding the number of queue pops. -/
def bfsLoop (g : List (String × List String)) (to_ : String) :
    ℕ → List String → List String → List (String × String) → Option (List String)
  | 0, _, _, _ => none
  | _ + 1, [], _, _ => none
  | fuel + 1, current :: rest, visited, parent =>
      if current = to_ then some (reconstruct (parent.length + 1) parent to_)
      else
        let next := visitNeighbors ((g.lookup current).getD []) current visited parent rest
        bfsLoop g to_ fuel next.2.2 next.1 next.2.1

/-- `CurrencyConverter::find_path` (currency_converter.hpp lines 223-270). -/
def find_path (c : CurrencyConverter) (from_ to_ : String) : List String :=
  if from_ = to_ then [from_]
  else if (c.graph.lookup from_).isNone then []
  else if (c.graph.lookup to_).isNone then []
  else
    match bfsLoop c.graph to_ (c.graph.length + 1) [from_] [from_] [(from_, "")] with
    | some path => path
    | none => []

/-- Conversion application along a found path (currency_converter.hpp lines
185-210): per hop use the direct pair (multiply) or the inverse pair
(divide). -/
def applyHops (c : CurrencyConverter) : ℚ → List String → Except ConvErr ℚ
  | result, curr :: next :: rest =>
      match c.pairs.lookup (pairKey curr next) with
      | some p => applyHops c (result * p.rate) (next :: rest)
      | none =>
          match c.pairs.lookup (pairKey next curr) with
          | some p => applyHops c (result / p.rate) (next :: rest)
          | none => .error .pathValidation
  | result, _ => .ok result

/-- `CurrencyConverter::convert` (currency_converter.hpp lines 156-213). -/
def convert (c : CurrencyConverter) (amount : ℚ) (from_ to_ : String) :
    Except ConvErr ℚ :=
  if from_ = to_ then .ok amount
  else
    match c.pairs.lookup (pairKey from_ to_) with
    | some p => .ok (amount * p.rate)
    | none =>
        match c.pairs.lookup (pairKey to_ from_) with
        | some p => .ok (amount / p.rate)
        | none =>
            let path := find_path c from_ to_
            if path.isEmpty then .error .noPath
            else applyHops c amount path

/-- The empty converter. -/
def emptyConverter : CurrencyConverter := ⟨[], []⟩

end Currency

/-! ## Trading data model (trading/*.hpp) -/

/-- `ENUM_ORDER_TYPE` (order_info.hpp). -/
inductive OrderType
  | BUY
  | SELL
  | BUY_LIMIT
  | SELL_LIMIT
  | BUY_STOP
  | SELL_STOP
  | BUY_STOP_LIMIT
  | SELL_STOP_LIMIT
  deriving DecidableEq, Repr

/-- `ENUM_POSITION_TYPE` (position_info.hpp). -/
inductive PositionType
  | BUY
  | SELL
  deriving DecidableEq, Repr

/-- `ENUM_ORDER_STATE` (order_info.hpp). -/
inductive OrderState
  | STARTED
  | PLACED
  | CANCELED
  | PARTIAL
  | FILLED
  | REJECTED
  | EXPIRED
  | REQUEST_ADD
  | REQUEST_MODIFY
  | REQUEST_CANCEL
  deriving DecidableEq, Repr

/-- `ENUM_ORDER_TYPE_FILLING` (order_info.hpp). -/
inductive OrderTypeFilling
  | FOK
  | IOC
  | RETURN
  deriving DecidableEq, Repr

/-- `ENUM_ORDER_TYPE_TIME` (order_info.hpp). -/
inductive OrderTypeTime
  | GTC
  | DAY
  | SPECIFIED
  | SPECIFIED_DAY
  deriving DecidableEq, Repr

/-- `ENUM_DEAL_TYPE` (deal_info.hpp), the variants used by the ledger. -/
inductive DealType
  | BUY
  | SELL
  | BALANCE
  | CREDIT
  | CHARGE
  | CORRECTION
  | BONUS
  | COMMISSION
  | INTEREST
  | DIVIDEND
  | TAX
  deriving DecidableEq, Repr

/-- `ENUM_DEAL_ENTRY` (deal_info.hpp). -/
inductive DealEntry
  | IN
  | OUT
  | INOUT
  | OUT_BY
  deriving DecidableEq, Repr

/-- `ENUM_TRADE_RETCODE` (trade.hpp lines 40-69), the codes used by the
embedded commands plus `INVALID_STOPS` for comparison with the spec. -/
inductive RetCode
  | DONE
  | PLACED
  | DONE_PARTIAL
  | ERROR
  | INVALID
  | INVALID_VOLUME
  | INVALID_PRICE
  | INVALID_STOPS
  | NO_MONEY
  | INVALID_ORDER
  | POSITION_CLOSED
  deriving DecidableEq, Repr

/-- `ENUM_TRADE_REQUEST_ACTIONS` (trade.hpp lines 28-35). -/
inductive TradeAction
  | DEAL
  | PENDING
  | SLTP
  | MODIFY
  | REMOVE
  | CLOSE_BY
  deriving DecidableEq, Repr

/-- `Tick` (data/tick.hpp): fixed-point prices scaled by `10^digits`. -/
structure Tick where
  timestamp_us : ℤ
  bid : ℤ
  ask : ℤ
  bid_volume : ℤ
  ask_volume : ℤ
  symbol_id : ℕ
  spread_points : ℤ
  deriving DecidableEq, Repr

/-- `SymbolInfo` (trading/symbol_info.hpp), the state read or written by the
embedded ledger operations. -/
structure SymbolInfo where
  name : String
  symbol_id : ℕ
  bid : ℤ
  ask : ℤ
  bid_high : ℤ
  bid_low : ℤ
  ask_high : ℤ
  ask_low : ℤ
  time : ℤ
  digits : ℤ
  point : ℚ
  spread : ℤ
  contract_size : ℚ
  volume_min : ℚ
  volume_max : ℚ
  volume_step : ℚ
  stops_level : ℤ
  freeze_level : ℤ
  currency_base : String
  currency_profit : String
  currency_margin : String
  deriving DecidableEq, Repr

namespace SymbolInfo

/-- `SymbolInfo::Bid` accessor: fixed-point to double. -/
def Bid (i : SymbolInfo) : ℚ := (i.bid : ℚ) / pow10 i.digits

/-- `SymbolInfo::Ask` accessor: fixed-point to double. -/
def Ask (i : SymbolInfo) : ℚ := (i.ask : ℚ) / pow10 i.digits

/-- `SymbolInfo::UpdatePrice` (trading/symbol_info.hpp lines 733-745). -/
def updatePrice (i : SymbolInfo) (bid ask : ℚ) (timestamp : ℤ) : SymbolInfo :=
  let multiplier := pow10 i.digits
  let bidFP := qtrunc (bid * multiplier + 1/2)
  let askFP := qtrunc (ask * multiplier + 1/2)
  let spread := qtrunc (((askFP - bidFP : ℤ) : ℚ) / i.point)
  { i with
    bid := bidFP
    ask := askFP
    spread := spread
    time := timestamp
    bid_high := if bidFP > i.bid_high ∨ i.bid_high = 0 then bidFP else i.bid_high
    bid_low := if bidFP < i.bid_low ∨ i.bid_low = 0 then bidFP else i.bid_low
    ask_high := if askFP > i.ask_high ∨ i.ask_high = 0 then askFP else i.ask_high
    ask_low := if askFP < i.ask_low ∨ i.ask_low = 0 then askFP else i.ask_low }

end SymbolInfo

/-- `PositionInfo` (trading/position_info.hpp): prices fixed-point at the
position's `digits_`, monetary values fixed-point at `10^6`. -/
structure PositionInfo where
  ticket : ℕ
  identifier : ℕ
  symbol : String
  magic : ℕ
  type : PositionType
  volume : ℚ
  price_open : ℤ
  price_current : ℤ
  stop_loss : ℤ
  take_profit : ℤ
  profit : ℤ
  commission : ℤ
  swap : ℤ
  time : ℤ
  time_update : ℤ
  comment : String
  trailing_distance : ℤ
  trailing_step : ℤ
  trailing_trigger : ℤ
  digits : ℤ
  point : ℚ
  contract_size : ℚ
  deriving DecidableEq, Repr

namespace PositionInfo

/-- The `PositionInfo()` default constructor (position_info.hpp lines
96-126). -/
def ctor : PositionInfo :=
  { ticket := 0, identifier := 0, symbol := "", magic := 0
    type := PositionType.BUY, volume := 0
    price_open := 0, price_current := 0, stop_loss := 0, take_profit := 0
    profit := 0, commission := 0, swap := 0
    time := 0, time_update := 0, comment := ""
    trailing_distance := 0, trailing_step := 0, trailing_trigger := 0
    digits := 5, point := 1/100000, contract_size := 100000 }

/-- `PositionInfo::PriceOpen` accessor: fixed-point to double. -/
def PriceOpen (p : PositionInfo) : ℚ := (p.price_open : ℚ) / pow10 p.digits

/-- `PositionInfo::StopLoss` accessor. -/
def StopLoss (p : PositionInfo) : ℚ := (p.stop_loss : ℚ) / pow10 p.digits

/-- `PositionInfo::TakeProfit` accessor. -/
def TakeProfit (p : PositionInfo) : ℚ := (p.take_profit : ℚ) / pow10 p.digits

/-- `PositionInfo::PriceCurrent` accessor. -/
def PriceCurrent (p : PositionInfo) : ℚ := (p.price_current : ℚ) / pow10 p.digits

/-- `PositionInfo::Profit` accessor: fixed-point to double. -/
def Profit (p : PositionInfo) : ℚ := (p.profit : ℚ) / 1000000

/-- `PositionInfo::Commission` accessor. -/
def Commission (p : PositionInfo) : ℚ := (p.commission : ℚ) / 1000000

/-- `PositionInfo::Swap` accessor. -/
def Swap (p : PositionInfo) : ℚ := (p.swap : ℚ) / 1000000

/-- `PositionInfo::SetTimeUpdate` (msc fields omitted). -/
def setTimeUpdate (p : PositionInfo) (t : ℤ) : PositionInfo :=
  { p with time_update := t }

/-- `PositionInfo::SetPriceOpen`: scale by `10^digits`, add 0.5, truncate. -/
def setPriceOpen (p : PositionInfo) (price : ℚ) : PositionInfo :=
  { p with price_open := qtrunc (price * pow10 p.digits + 1/2) }

/-- `PositionInfo::SetPriceCurrent`. -/
def setPriceCurrent (p : PositionInfo) (price : ℚ) : PositionInfo :=
  { p with price_current := qtrunc (price * pow10 p.digits + 1/2) }

/-- `PositionInfo::SetStopLoss` (position_info.hpp lines 398-402): store the
scaled level and refresh the modification time. -/
def setStopLoss (p : PositionInfo) (sl : ℚ) : PositionInfo :=
  let p := { p with stop_loss := qtrunc (sl * pow10 p.digits + 1/2) }
  p.setTimeUpdate (if p.time_update > 0 then p.time_update else p.time)

/-- `PositionInfo::SetTakeProfit` (position_info.hpp lines 404-408). -/
def setTakeProfit (p : PositionInfo) (tp : ℚ) : PositionInfo :=
  let p := { p with take_profit := qtrunc (tp * pow10 p.digits + 1/2) }
  p.setTimeUpdate (if p.time_update > 0 then p.time_update else p.time)

/-- `PositionInfo::SetTrailingTrigger`. -/
def setTrailingTrigger (p : PositionInfo) (trigger : ℚ) : PositionInfo :=
  { p with trailing_trigger := qtrunc (trigger * pow10 p.digits + 1/2) }

/-- `PositionInfo::SetCommission` (stores `10^6`-scaled). -/
def setCommission (p : PositionInfo) (c : ℚ) : PositionInfo :=
  { p with commission := qtrunc (c * 1000000) }

/-- `PositionInfo::SetSwap`. -/
def setSwap (p : PositionInfo) (s : ℚ) : PositionInfo :=
  { p with swap := qtrunc (s * 1000000) }

/-- `PositionInfo::RecalculateProfit` (position_info.hpp lines 440-453). -/
def recalculateProfit (p : PositionInfo) : PositionInfo :=
  let price_diff : ℤ :=
    if p.type = PositionType.BUY then p.price_current - p.price_open
    else p.price_open - p.price_current
  { p with
    profit := qtrunc ((price_diff : ℚ) / pow10 p.digits * p.volume * p.contract_size * 1000000) }

/-- `PositionInfo::UpdatePrice` (position_info.hpp lines 431-435). -/
def updatePrice (p : PositionInfo) (new_price : ℚ) : PositionInfo :=
  let p := p.setPriceCurrent new_price
  let p := p.recalculateProfit
  p.setTimeUpdate (p.time_update + 1)

end PositionInfo

/-- `OrderInfo` (trading/order_info.hpp): prices fixed-point at the order's
`digits_` (which the ledger never sets, so it stays at its default 5). -/
structure OrderInfo where
  ticket : ℕ
  symbol : String
  magic : ℕ
  position_id : ℕ
  order_type : OrderType
  state : OrderState
  volume_initial : ℚ
  volume_current : ℚ
  price_open : ℤ
  price_current : ℤ
  price_stoplimit : ℤ
  stop_loss : ℤ
  take_profit : ℤ
  time_setup : ℤ
  time_expiration : ℤ
  time_done : ℤ
  type_filling : OrderTypeFilling
  type_time : OrderTypeTime
  comment : String
  digits : ℤ
  deriving DecidableEq, Repr

namespace OrderInfo

/-- The `OrderInfo()` default constructor (order_info.hpp lines 120-146). -/
def ctor : OrderInfo :=
  { ticket := 0, symbol := "", magic := 0, position_id := 0
    order_type := OrderType.BUY, state := OrderState.PLACED
    volume_initial := 0, volume_current := 0
    price_open := 0, price_current := 0, price_stoplimit := 0
    stop_loss := 0, take_profit := 0
    time_setup := 0, time_expiration := 0, time_done := 0
    type_filling := OrderTypeFilling.FOK, type_time := OrderTypeTime.GTC
    comment := "", digits := 5 }

/-- `OrderInfo::SetPriceOpen`. -/
def setPriceOpen (o : OrderInfo) (price : ℚ) : OrderInfo :=
  { o with price_open := qtrunc (price * pow10 o.digits + 1/2) }

/-- `OrderInfo::SetPriceStopLimit`. -/
def setPriceStopLimit (o : OrderInfo) (price : ℚ) : OrderInfo :=
  { o with price_stoplimit := qtrunc (price * pow10 o.digits + 1/2) }

/-- `OrderInfo::SetStopLoss`. -/
def setStopLoss (o : OrderInfo) (sl : ℚ) : OrderInfo :=
  { o with stop_loss := qtrunc (sl * pow10 o.digits + 1/2) }

/-- `OrderInfo::SetTakeProfit`. -/
def setTakeProfit (o : OrderInfo) (tp : ℚ) : OrderInfo :=
  { o with take_profit := qtrunc (tp * pow10 o.digits + 1/2) }

end OrderInfo

/-- `DealInfo` (trading/deal_info.hpp): the fields the ledger writes. The
deal's `digits_` keeps its default 5 (the ledger never sets it). -/
structure DealInfo where
  ticket : ℕ
  order : ℕ
  position_id : ℕ
  symbol : String
  magic : ℕ
  dtype : DealType
  entry : DealEntry
  volume : ℚ
  price : ℤ
  profit : ℤ
  commission : ℤ
  swap : ℤ
  time : ℤ
  entry_price : ℤ
  exit_price : ℤ
  entry_time : ℤ
  exit_time : ℤ
  comment : String
  digits : ℤ
  deriving DecidableEq, Repr

namespace DealInfo

/-- The `DealInfo()` default constructor. -/
def ctor : DealInfo :=
  { ticket := 0, order := 0, position_id := 0, symbol := "", magic := 0
    dtype := DealType.BUY, entry := DealEntry.IN
    volume := 0, price := 0, profit := 0, commission := 0, swap := 0
    time := 0, entry_price := 0, exit_price := 0, entry_time := 0, exit_time := 0
    comment := "", digits := 5 }

/-- `DealInfo::SetPrice` (scales with the deal's own `digits_`). -/
def setPrice (d : DealInfo) (price : ℚ) : DealInfo :=
  { d with price := qtrunc (price * pow10 d.digits + 1/2) }

/-- `DealInfo::SetProfit`. -/
def setProfit (d : DealInfo) (p : ℚ) : DealInfo :=
  { d with profit := qtrunc (p * 1000000) }

/-- `DealInfo::SetCommissionValue` (`SetCommission` in the source). -/
def setCommissionValue (d : DealInfo) (c : ℚ) : DealInfo :=
  { d with commission := qtrunc (c * 1000000) }

/-- `DealInfo::SetSwapValue` (`SetSwap` in the source). -/
def setSwapValue (d : DealInfo) (s : ℚ) : DealInfo :=
  { d with swap := qtrunc (s * 1000000) }

/-- `DealInfo::Commission` accessor. -/
def Commission (d : DealInfo) : ℚ := (d.commission : ℚ) / 1000000

/-- `DealInfo::Swap` accessor. -/
def Swap (d : DealInfo) : ℚ := (d.swap : ℚ) / 1000000

/-- `DealInfo::SetEntryPrice` (scales with the deal's own `digits_`). -/
def setEntryPrice (d : DealInfo) (price : ℚ) : DealInfo :=
  { d with entry_price := qtrunc (price * pow10 d.digits + 1/2) }

/-- `DealInfo::SetExitPrice`. -/
def setExitPrice (d : DealInfo) (price : ℚ) : DealInfo :=
  { d with exit_price := qtrunc (price * pow10 d.digits + 1/2) }

end DealInfo

/-! ## costs/costs_engine.hpp -/

namespace Costs

/-- `ExecutionResult` (costs_engine.hpp lines 32-41). -/
structure ExecutionResult where
  executed : Bool
  fill_price : ℤ
  slippage : ℤ
  commission : ℤ
  spread_cost : ℤ
  deriving DecidableEq, Repr

/-- The `ExecutionResult()` default constructor. -/
def ExecutionResult.ctor : ExecutionResult :=
  { executed := false, fill_price := 0, slippage := 0, commission := 0, spread_cost := 0 }

/-- `PendingOrder` (costs_engine.hpp lines 46-55). -/
structure PendingOrder where
  ticket : ℕ
  symbol_id : ℕ
  type : OrderType
  volume : ℚ
  price : ℤ
  sl : ℤ
  tp : ℤ
  timestamp_us : ℤ
  deriving DecidableEq, Repr

/-- `Position` (costs_engine.hpp lines 60-71). -/
structure Position where
  ticket : ℕ
  symbol_id : ℕ
  type : PositionType
  volume : ℚ
  open_price : ℤ
  sl : ℤ
  tp : ℤ
  open_time_us : ℤ
  commission : ℤ
  swap : ℤ
  deriving DecidableEq, Repr

/-- The polymorphic cost-model families held by `CostsEngine`
(`ISlippageModel`, `ICommissionModel`, `ISpreadModel`). The engine threads
its seeded `std::mt19937_64` through each `calculate` call; a single
`evaluate_order` / `evaluate_position` call observes the models as the fixed
functions recorded here. -/
structure CostModels where
  slippageCalc : PositionType → ℚ → Tick → SymbolInfo → ℤ
  commissionCalc : PositionType → ℚ → ℤ → SymbolInfo → ℤ
  spreadCalc : Tick → SymbolInfo → ℤ → ℤ

/-- `CostsEngine::evaluate_order` (costs_engine.hpp lines 152-246). -/
def evaluate_order (m : CostModels) (order : PendingOrder) (tick : Tick)
    (info : SymbolInfo) : ExecutionResult :=
  let is_buy := order.type = OrderType.BUY ∨ order.type = OrderType.BUY_LIMIT ∨
    order.type = OrderType.BUY_STOP ∨ order.type = OrderType.BUY_STOP_LIMIT
  let trig : Bool × ℤ :=
    match order.type with
    | OrderType.BUY => (true, tick.ask)
    | OrderType.SELL => (true, tick.bid)
    | OrderType.BUY_LIMIT =>
        if tick.ask ≤ order.price then (true, order.price) else (false, 0)
    | OrderType.SELL_LIMIT =>
        if tick.bid ≥ order.price then (true, order.price) else (false, 0)
    | OrderType.BUY_STOP =>
        if tick.ask ≥ order.price then (true, tick.ask) else (false, 0)
    | OrderType.SELL_STOP =>
        if tick.bid ≤ order.price then (true, tick.bid) else (false, 0)
    | OrderType.BUY_STOP_LIMIT =>
        if tick.ask ≥ order.price then (true, min tick.ask order.price) else (false, 0)
    | OrderType.SELL_STOP_LIMIT =>
        if tick.bid ≤ order.price then (true, max tick.bid order.price) else (false, 0)
  if ¬trig.1 then ExecutionResult.ctor
  else
    let pos_type := if is_buy then PositionType.BUY else PositionType.SELL
    let slippage := m.slippageCalc pos_type order.volume tick info
    let spread_cost := m.spreadCalc tick info tick.timestamp_us
    let fill_price := if is_buy then trig.2 + slippage else trig.2 - slippage
    { executed := true
      fill_price := fill_price
      slippage := slippage
      commission := m.commissionCalc pos_type order.volume fill_price info
      spread_cost := spread_cost }

/-- `CostsEngine::evaluate_position` (costs_engine.hpp lines 255-310). -/
def evaluate_position (m : CostModels) (position : Position) (tick : Tick)
    (info : SymbolInfo) : ExecutionResult :=
  let close_type := if position.type = PositionType.BUY then PositionType.SELL
    else PositionType.BUY
  let trig : Bool × ℤ :=
    if position.type = PositionType.BUY then
      if position.sl > 0 ∧ tick.bid ≤ position.sl then (true, min tick.bid position.sl)
      else if position.tp > 0 ∧ tick.bid ≥ position.tp then (true, max tick.bid position.tp)
      else (false, 0)
    else
      if position.sl > 0 ∧ tick.ask ≥ position.sl then (true, max tick.ask position.sl)
      else if position.tp > 0 ∧ tick.ask ≤ position.tp then (true, min tick.ask position.tp)
      else (false, 0)
  if ¬trig.1 then ExecutionResult.ctor
  else
    let slippage := m.slippageCalc close_type position.volume tick info
    let spread_cost := m.spreadCalc tick info tick.timestamp_us
    let fill_price :=
      if close_type = PositionType.BUY then trig.2 + slippage else trig.2 - slippage
    { executed := true
      fill_price := fill_price
      slippage := slippage
      commission := m.commissionCalc close_type position.volume fill_price info
      spread_cost := spread_cost }

end Costs

/-! ## trading/trade.hpp and trading/trade.cpp -/

namespace Trade

/-- `AccountInfo` (trading/account_info.hpp): monetary state fixed-point at
`10^6`, plus the running statistics mutated by the ledger. -/
structure AccountInfo where
  balance : ℤ
  equity : ℤ
  margin : ℤ
  margin_free : ℤ
  profit : ℤ
  credit : ℤ
  margin_level : ℚ
  margin_so_call : ℚ
  margin_so_so : ℚ
  currency : String
  leverage : ℤ
  total_profit : ℤ
  total_loss : ℤ
  total_commission : ℤ
  total_swap : ℤ
  total_trades : ℕ
  winning_trades : ℕ
  losing_trades : ℕ
  daily_trades : ℕ
  daily_profit : ℤ
  daily_high_equity : ℤ
  daily_low_equity : ℤ
  deriving DecidableEq, Repr

namespace AccountInfo

/-- The `AccountInfo` constructor (account_info.hpp lines 99-133). -/
def ctor (initial_balance : ℚ) (currency : String) (leverage : ℤ) : AccountInfo :=
  let fp := qtrunc (initial_balance * 1000000)
  { balance := fp, equity := fp, margin := 0, margin_free := fp
    profit := 0, credit := 0
    margin_level := 0, margin_so_call := 100, margin_so_so := 50
    currency := currency, leverage := leverage
    total_profit := 0, total_loss := 0, total_commission := 0, total_swap := 0
    total_trades := 0, winning_trades := 0, losing_trades := 0
    daily_trades := 0, daily_profit := 0
    daily_high_equity := fp, daily_low_equity := fp }

/-- `AccountInfo::Balance` accessor: fixed-point to double. -/
def Balance (a : AccountInfo) : ℚ := (a.balance : ℚ) / 1000000

/-- `AccountInfo::Equity` accessor. -/
def Equity (a : AccountInfo) : ℚ := (a.equity : ℚ) / 1000000

/-- `AccountInfo::Margin` accessor. -/
def Margin (a : AccountInfo) : ℚ := (a.margin : ℚ) / 1000000

/-- `AccountInfo::FreeMargin` accessor. -/
def FreeMargin (a : AccountInfo) : ℚ := (a.margin_free : ℚ) / 1000000

/-- `AccountInfo::UpdateEquity` (account_info.hpp lines 364-384). -/
def updateEquity (a : AccountInfo) (total_unrealized_pnl : ℤ) : AccountInfo :=
  let equity := a.balance + total_unrealized_pnl
  { a with
    profit := total_unrealized_pnl
    equity := equity
    margin_level :=
      if a.margin > 0 then (equity : ℚ) / (a.margin : ℚ) * 100 else 0
    margin_free := equity - a.margin
    daily_high_equity := if equity > a.daily_high_equity then equity else a.daily_high_equity
    daily_low_equity :=
      if equity < a.daily_low_equity ∨ a.daily_low_equity = 0 then equity
      else a.daily_low_equity }

/-- `AccountInfo::AddMargin` (account_info.hpp lines 329-332). -/
def addMargin (a : AccountInfo) (amount : ℤ) : AccountInfo :=
  let a := { a with margin := a.margin + amount }
  a.updateEquity a.profit

/-- `AccountInfo::SubtractMargin` (account_info.hpp lines 338-341). -/
def subtractMargin (a : AccountInfo) (amount : ℤ) : AccountInfo :=
  let a := { a with margin := a.margin - amount }
  a.updateEquity a.profit

/-- `AccountInfo::ApplyRealizedPnL` (account_info.hpp lines 401-419). -/
def applyRealizedPnL (a : AccountInfo) (realized_pnl commission swap : ℤ) : AccountInfo :=
  let net_pnl := realized_pnl - commission + swap
  let a := { a with
    balance := a.balance + net_pnl
    total_commission := a.total_commission + commission
    total_swap := a.total_swap + swap
    total_trades := a.total_trades + 1 }
  let a :=
    if realized_pnl > 0 then
      { a with total_profit := a.total_profit + realized_pnl
               winning_trades := a.winning_trades + 1 }
    else if realized_pnl < 0 then
      { a with total_loss := a.total_loss + (-realized_pnl)
               losing_trades := a.losing_trades + 1 }
    else a
  { a with daily_trades := a.daily_trades + 1, daily_profit := a.daily_profit + net_pnl }

end AccountInfo

/-- `MqlTradeRequest` (trade.hpp lines 74-101). -/
structure MqlTradeRequest where
  action : TradeAction
  magic : ℕ
  order : ℕ
  symbol : String
  volume : ℚ
  price : ℚ
  stoplimit : ℚ
  sl : ℚ
  tp : ℚ
  deviation : ℕ
  type : OrderType
  type_filling : OrderTypeFilling
  type_time : OrderTypeTime
  expiration : ℤ
  comment : String
  position : ℕ
  position_by : ℕ
  deriving DecidableEq, Repr

/-- The `MqlTradeRequest()` default constructor. -/
def MqlTradeRequest.ctor : MqlTradeRequest :=
  { action := TradeAction.DEAL, magic := 0, order := 0, symbol := ""
    volume := 0, price := 0, stoplimit := 0, sl := 0, tp := 0, deviation := 0
    type := OrderType.BUY, type_filling := OrderTypeFilling.FOK
    type_time := OrderTypeTime.GTC, expiration := 0, comment := ""
    position := 0, position_by := 0 }

/-- `MqlTradeResult` (trade.hpp lines 106-122). -/
structure MqlTradeResult where
  retcode : RetCode
  deal : ℕ
  order : ℕ
  volume : ℚ
  price : ℚ
  bid : ℚ
  ask : ℚ
  comment : String
  deriving DecidableEq, Repr

/-- The `MqlTradeResult()` default constructor. -/
def MqlTradeResult.ctor : MqlTradeResult :=
  { retcode := RetCode.ERROR, deal := 0, order := 0, volume := 0, price := 0
    bid := 0, ask := 0, comment := "" }

/-- `MqlTradeCheckResult` (trade.hpp lines 127-141). -/
structure MqlTradeCheckResult where
  retcode : RetCode
  balance : ℚ
  equity : ℚ
  profit : ℚ
  margin : ℚ
  margin_free : ℚ
  margin_level : ℚ
  comment : String
  deriving DecidableEq, Repr

/-- The `MqlTradeCheckResult()` default constructor. -/
def MqlTradeCheckResult.ctor : MqlTradeCheckResult :=
  { retcode := RetCode.DONE, balance := 0, equity := 0, profit := 0
    margin := 0, margin_free := 0, margin_level := 0, comment := "" }

/-- The `CTrade` ledger state (trade.hpp lines 149-196). -/
structure CTrade where
  account : AccountInfo
  positions : List PositionInfo
  orders : List OrderInfo
  deals : List DealInfo
  history_orders : List OrderInfo
  next_ticket : ℕ
  symbols : List (ℕ × SymbolInfo)
  symbol_name_to_id : List (String × ℕ)
  magic_number : ℕ
  deviation : ℕ
  type_filling : OrderTypeFilling
  log_level : ℤ
  last_request : MqlTradeRequest
  last_result : MqlTradeResult
  last_check : MqlTradeCheckResult
  current_time_us : ℤ

namespace CTrade

/-- The `CTrade` constructor (trade.hpp lines 185-195). -/
def ctor (initial_balance : ℚ := 10000) (currency : String := "USD")
    (leverage : ℤ := 100) : CTrade :=
  { account := AccountInfo.ctor initial_balance currency leverage
    positions := [], orders := [], deals := [], history_orders := []
    next_ticket := 1000
    symbols := [], symbol_name_to_id := []
    magic_number := 0, deviation := 10, type_filling := OrderTypeFilling.FOK
    log_level := 0
    last_request := MqlTradeRequest.ctor
    last_result := MqlTradeResult.ctor
    last_check := MqlTradeCheckResult.ctor
    current_time_us := 0 }

/-- `CTrade::RegisterSymbol` (trade.hpp lines 742-746). -/
def registerSymbol (s : CTrade) (info : SymbolInfo) : CTrade :=
  let id := info.symbol_id
  let symbols :=
    if s.symbols.any (fun q => q.1 = id) then
      s.symbols.map (fun q => if q.1 = id then (id, info) else q)
    else s.symbols ++ [(id, info)]
  let names :=
    if s.symbol_name_to_id.any (fun q => q.1 = info.name) then
      s.symbol_name_to_id.map (fun q => if q.1 = info.name then (info.name, id) else q)
    else s.symbol_name_to_id ++ [(info.name, id)]
  { s with symbols := symbols, symbol_name_to_id := names }

/-- `CTrade::GetSymbolInfo` (trade.hpp lines 924-930). -/
def getSymbolInfo (s : CTrade) (symbol : String) : Option SymbolInfo :=
  match s.symbol_name_to_id.lookup symbol with
  | none => none
  | some id => s.symbols.lookup id

/-- `CTrade::CalculateMargin` (trade.cpp lines 631-636). -/
def calculateMargin (s : CTrade) (volume price : ℚ) (info : SymbolInfo) : ℚ :=
  volume * info.contract_size * price / (s.account.leverage : ℚ)

/-- The per-position summand of `CTrade::UpdateEquity` (trade.cpp line 625):
`static_cast<int64_t>(pos.Profit() * 1'000'000.0)`. -/
def profitSummand (p : PositionInfo) : ℤ :=
  qtrunc (p.Profit * 1000000)

/-- `CTrade::UpdateEquity` (trade.cpp lines 621-629). -/
def updateEquityLedger (s : CTrade) : CTrade :=
  let total := s.positions.foldl (fun acc p => acc + profitSummand p) 0
  { s with account := s.account.updateEquity total }

/-- `CTrade::CheckRequest` (trade.cpp lines 638-690). Returns the C++ bool
together with the written `MqlTradeCheckResult`. -/
def checkRequest (s : CTrade) (request : MqlTradeRequest) : Bool × MqlTradeCheckResult :=
  let check : MqlTradeCheckResult :=
    { retcode := RetCode.DONE
      balance := s.account.Balance
      equity := s.account.Equity
      profit := 0
      margin := s.account.Margin
      margin_free := s.account.FreeMargin
      margin_level := s.account.margin_level
      comment := "" }
  match getSymbolInfo s request.symbol with
  | none => (false, { check with retcode := RetCode.INVALID, comment := "Unknown symbol" })
  | some info =>
      if request.volume ≤ 0 then
        (false, { check with retcode := RetCode.INVALID_VOLUME, comment := "Invalid volume" })
      else if request.volume < info.volume_min ∨ request.volume > info.volume_max then
        (false, { check with retcode := RetCode.INVALID_VOLUME, comment := "Volume out of range" })
      else if request.action = TradeAction.DEAL ∨ request.action = TradeAction.PENDING then
        let price :=
          if request.price > 0 then request.price
          else if request.type = OrderType.BUY then info.Ask else info.Bid
        let required_margin := calculateMargin s request.volume price info
        let margin := check.margin + required_margin
        let margin_free := check.equity - margin
        if margin_free < 0 then
          (false, { check with
            margin := margin, margin_free := margin_free
            retcode := RetCode.NO_MONEY, comment := "Insufficient margin" })
        else
          (true, { check with
            margin := margin, margin_free := margin_free
            margin_level := if margin > 0 then check.equity / margin * 100 else 0
            comment := "Request valid" })
      else (true, { check with comment := "Request valid" })

/-- `CTrade::InternalPositionOpen` (trade.cpp lines 772-817). Returns the
issued ticket (0 on failure) and the new state. The source applies the
price/SL/TP setters before `SetDigits`, so they scale with the default 5
digits; this order is preserved. -/
def internalPositionOpen (s : CTrade) (symbol : String) (type : PositionType)
    (volume price sl tp : ℚ) (comment : String) : ℕ × CTrade :=
  match getSymbolInfo s symbol with
  | none => (0, s)
  | some info =>
      let ticket := s.next_ticket
      let pos := PositionInfo.ctor
      let pos := { pos with ticket := ticket, identifier := ticket }
      let pos := { pos with symbol := symbol, type := type, volume := volume }
      let pos := pos.setPriceOpen price
      let pos := pos.setPriceCurrent price
      let pos := pos.setStopLoss sl
      let pos := pos.setTakeProfit tp
      let pos := pos.setCommission 0
      let pos := pos.setSwap 0
      let pos := { pos with time := s.current_time_us }
      let pos := pos.setTimeUpdate s.current_time_us
      let pos := { pos with magic := s.magic_number, comment := comment }
      let pos := { pos with
        digits := info.digits, point := info.point, contract_size := info.contract_size }
      let pos := pos.recalculateProfit
      let positions :=
        if s.positions.any (fun q => q.ticket = ticket) then
          s.positions.map (fun q => if q.ticket = ticket then pos else q)
        else s.positions ++ [pos]
      let margin := calculateMargin s volume price info
      let account := s.account.addMargin (qtrunc (margin * 1000000))
      let s := { s with
        positions := positions, account := account, next_ticket := s.next_ticket + 1 }
      (ticket, updateEquityLedger s)

/-- The deal record built by `CTrade::InternalPositionClose` (trade.cpp lines
839-862), following the source's setter sequence. -/
def closeDealRecord (s : CTrade) (ticket : ℕ) (pos : PositionInfo)
    (close_volume profitRatio realized_profit price : ℚ) : DealInfo :=
  let deal := DealInfo.ctor
  let deal := { deal with ticket := s.next_ticket }
  let deal := { deal with position_id := ticket, order := 0, symbol := pos.symbol }
  let deal := { deal with
    dtype := if pos.type = PositionType.BUY then DealType.SELL else DealType.BUY
    entry := DealEntry.OUT }
  let deal := { deal with volume := close_volume }
  let deal := deal.setPrice price
  let deal := deal.setProfit realized_profit
  let deal := deal.setCommissionValue (pos.Commission * profitRatio)
  let deal := deal.setSwapValue (pos.Swap * profitRatio)
  let deal := { deal with
    time := s.current_time_us, magic := pos.magic, comment := pos.comment }
  let deal := deal.setEntryPrice pos.PriceOpen
  let deal := deal.setExitPrice price
  { deal with entry_time := pos.time, exit_time := s.current_time_us }

/-- The full-close branch of `CTrade::InternalPositionClose` (trade.cpp lines
872-878): release the margin and erase the position. -/
def closeFullBranch (s : CTrade) (ticket : ℕ) (pos : PositionInfo)
    (info : SymbolInfo) (positions1 : List PositionInfo) (deals : List DealInfo)
    (account : AccountInfo) (next_ticket : ℕ) : CTrade :=
  let margin := calculateMargin s pos.volume pos.PriceOpen info
  let account := account.subtractMargin (qtrunc (margin * 1000000))
  { s with account := account, deals := deals, next_ticket := next_ticket,
           positions := positions1.filter (fun q => q.ticket ≠ ticket) }

/-- The partial-close branch of `CTrade::InternalPositionClose` (trade.cpp
lines 879-888): shrink the volume and adjust the margin. -/
def closePartialBranch (s : CTrade) (ticket : ℕ) (pos : PositionInfo)
    (close_volume : ℚ) (info : SymbolInfo) (positions1 : List PositionInfo)
    (deals : List DealInfo) (account : AccountInfo) (next_ticket : ℕ) : CTrade :=
  let pos2 := ({ pos with volume := pos.volume - close_volume }).recalculateProfit
  let old_margin := calculateMargin s (pos2.volume + close_volume) pos2.PriceOpen info
  let new_margin := calculateMargin s pos2.volume pos2.PriceOpen info
  let account := account.subtractMargin (qtrunc ((old_margin - new_margin) * 1000000))
  { s with account := account, deals := deals, next_ticket := next_ticket,
           positions := positions1.map (fun q => if q.ticket = ticket then pos2 else q) }

/-- `CTrade::InternalPositionClose` (trade.cpp lines 819-900). -/
def internalPositionClose (s : CTrade) (ticket : ℕ) (volume price : ℚ) :
    Bool × CTrade :=
  match s.positions.find? (fun p => p.ticket = ticket) with
  | none => (false, s)
  | some pos0 =>
      match getSymbolInfo s pos0.symbol with
      | none => (false, s)
      | some info =>
          let pos := pos0.updatePrice price
          let positions1 := s.positions.map (fun q => if q.ticket = ticket then pos else q)
          let close_volume := min volume pos.volume
          let full_close := close_volume ≥ pos.volume
          let profitRatio := close_volume / pos.volume
          let realized_profit := pos.Profit * profitRatio
          let deal := closeDealRecord s ticket pos close_volume profitRatio realized_profit price
          let next_ticket := s.next_ticket + 1
          let deals := s.deals ++ [deal]
          let realized_pnl_fp := qtrunc (realized_profit * 1000000)
          let commission_fp := qtrunc (deal.Commission * 1000000)
          let swap_fp := qtrunc (deal.Swap * 1000000)
          let account := s.account.applyRealizedPnL realized_pnl_fp commission_fp swap_fp
          let s1 :=
            if full_close then
              closeFullBranch s ticket pos info positions1 deals account next_ticket
            else
              closePartialBranch s ticket pos close_volume info positions1 deals account next_ticket
          let s1 := updateEquityLedger s1
          let s1 := { s1 with last_result := { s1.last_result with
            retcode := RetCode.DONE
            deal := deal.ticket
            volume := close_volume
            price := price
            comment := if full_close then "Position closed" else "Position partially closed" } }
          (true, s1)

/-- `CTrade::InternalOrderPlace` (trade.cpp lines 902-939). -/
def internalOrderPlace (s : CTrade) (symbol : String) (type : OrderType)
    (volume price stop_limit sl tp : ℚ) (type_time : OrderTypeTime)
    (expiration : ℤ) (comment : String) : ℕ × CTrade :=
  match getSymbolInfo s symbol with
  | none => (0, s)
  | some _ =>
      let ticket := s.next_ticket
      let order := OrderInfo.ctor
      let order := { order with
        ticket := ticket, symbol := symbol, order_type := type,
        state := OrderState.PLACED, volume_initial := volume, volume_current := volume }
      let order := order.setPriceOpen price
      let order := order.setStopLoss sl
      let order := order.setTakeProfit tp
      let order := order.setPriceStopLimit stop_limit
      let order := { order with
        type_filling := s.type_filling, type_time := type_time,
        time_expiration := expiration, time_setup := s.current_time_us,
        time_done := 0, magic := s.magic_number, comment := comment }
      let orders :=
        if s.orders.any (fun q => q.ticket = ticket) then
          s.orders.map (fun q => if q.ticket = ticket then order else q)
        else s.orders ++ [order]
      (ticket, { s with orders := orders, next_ticket := s.next_ticket + 1 })

/-- `CTrade::ExecuteRequest` (trade.cpp lines 692-770). -/
def executeRequest (s : CTrade) (request : MqlTradeRequest) : Bool × CTrade :=
  let result := MqlTradeResult.ctor
  match getSymbolInfo s request.symbol with
  | none =>
      (false, { s with last_result := { result with
        retcode := RetCode.INVALID, comment := "Symbol not found" } })
  | some info =>
      let result := { result with bid := info.Bid, ask := info.Ask }
      match request.action with
      | TradeAction.DEAL =>
          if request.type = OrderType.BUY then
            let exec_price := info.Ask
            let r := internalPositionOpen s request.symbol PositionType.BUY
              request.volume exec_price request.sl request.tp request.comment
            if r.1 > 0 then
              (true, { r.2 with last_result := { result with
                retcode := RetCode.DONE, order := r.1, volume := request.volume,
                price := exec_price, comment := "Position opened" } })
            else
              (false, { r.2 with last_result := { result with
                retcode := RetCode.ERROR, comment := "Failed to open position" } })
          else if request.type = OrderType.SELL then
            let exec_price := info.Bid
            let r := internalPositionOpen s request.symbol PositionType.SELL
              request.volume exec_price request.sl request.tp request.comment
            if r.1 > 0 then
              (true, { r.2 with last_result := { result with
                retcode := RetCode.DONE, order := r.1, volume := request.volume,
                price := exec_price, comment := "Position opened" } })
            else
              (false, { r.2 with last_result := { result with
                retcode := RetCode.ERROR, comment := "Failed to open position" } })
          else
            (false, { s with last_result := { result with
              retcode := RetCode.INVALID, comment := "Invalid order type for market execution" } })
      | TradeAction.PENDING =>
          let r := internalOrderPlace s request.symbol request.type request.volume
            request.price request.stoplimit request.sl request.tp
            request.type_time request.expiration request.comment
          if r.1 > 0 then
            (true, { r.2 with last_result := { result with
              retcode := RetCode.PLACED, order := r.1, volume := request.volume,
              price := request.price, comment := "Order placed" } })
          else
            (false, { r.2 with last_result := { result with
              retcode := RetCode.ERROR, comment := "Failed to place order" } })
      | _ =>
          (false, { s with last_result := { result with
            retcode := RetCode.INVALID, comment := "Unsupported action" } })

/-- `CTrade::PositionOpen` (trade.cpp lines 17-54). -/
def positionOpen (s : CTrade) (symbol : String) (order_type : OrderType)
    (volume price sl tp : ℚ) (comment : String) : Bool × CTrade :=
  let request := { MqlTradeRequest.ctor with
    action := TradeAction.DEAL, symbol := symbol, type := order_type
    volume := volume, price := price, sl := sl, tp := tp
    deviation := s.deviation, type_filling := s.type_filling
    magic := s.magic_number, comment := comment }
  let s := { s with last_request := request }
  let c := checkRequest s request
  let s := { s with last_check := c.2 }
  if ¬c.1 then
    (false, { s with last_result := { s.last_result with
      retcode := c.2.retcode, comment := c.2.comment } })
  else executeRequest s request

/-- `CTrade::PositionModify` by ticket (trade.cpp lines 77-107). -/
def positionModify (s : CTrade) (ticket : ℕ) (sl tp : ℚ) : Bool × CTrade :=
  match s.positions.find? (fun p => p.ticket = ticket) with
  | none =>
      (false, { s with last_result := { s.last_result with
        retcode := RetCode.INVALID_ORDER, comment := "Position not found" } })
  | some pos =>
      let request := { MqlTradeRequest.ctor with
        action := TradeAction.SLTP, position := ticket, symbol := pos.symbol
        sl := sl, tp := tp, magic := s.magic_number }
      let s := { s with last_request := request }
      let s := { s with positions := s.positions.map (fun (p : PositionInfo) =>
        if p.ticket = ticket then
          let p := if sl > 0 then p.setStopLoss sl else p
          let p := if tp > 0 then p.setTakeProfit tp else p
          p
        else p) }
      (true, { s with last_result := { s.last_result with
        retcode := RetCode.DONE, comment := "Position modified" } })

/-- `CTrade::PositionClose` by ticket (trade.cpp lines 129-162). -/
def positionClose (s : CTrade) (ticket : ℕ) (deviation : ℕ) : Bool × CTrade :=
  match s.positions.find? (fun p => p.ticket = ticket) with
  | none =>
      (false, { s with last_result := { s.last_result with
        retcode := RetCode.POSITION_CLOSED, comment := "Position not found" } })
  | some pos =>
      let request := { MqlTradeRequest.ctor with
        action := TradeAction.DEAL, position := ticket, symbol := pos.symbol
        volume := pos.volume
        deviation := if deviation > 0 then deviation else s.deviation
        magic := s.magic_number }
      let s := { s with last_request := request }
      match getSymbolInfo s pos.symbol with
      | none =>
          (false, { s with last_result := { s.last_result with
            retcode := RetCode.INVALID, comment := "Symbol not found" } })
      | some info =>
          let close_price := if pos.type = PositionType.BUY then info.Bid else info.Ask
          internalPositionClose s ticket pos.volume close_price

/-- `CTrade::PositionClosePartial` by ticket (trade.cpp lines 185-223). -/
def positionClosePartial (s : CTrade) (ticket : ℕ) (volume : ℚ) (deviation : ℕ) :
    Bool × CTrade :=
  match s.positions.find? (fun p => p.ticket = ticket) with
  | none =>
      (false, { s with last_result := { s.last_result with
        retcode := RetCode.POSITION_CLOSED, comment := "Position not found" } })
  | some pos =>
      if volume ≥ pos.volume then positionClose s ticket deviation
      else
        match getSymbolInfo s pos.symbol with
        | none =>
            (false, { s with last_result := { s.last_result with
              retcode := RetCode.INVALID, comment := "Symbol not found" } })
        | some info =>
            let close_price := if pos.type = PositionType.BUY then info.Bid else info.Ask
            let request := { MqlTradeRequest.ctor with
              action := TradeAction.DEAL, position := ticket, symbol := pos.symbol
              volume := volume
              deviation := if deviation > 0 then deviation else s.deviation
              magic := s.magic_number }
            let s := { s with last_request := request }
            internalPositionClose s ticket volume close_price

/-- `CTrade::PositionCloseBy` (trade.cpp lines 225-278). -/
def positionCloseBy (s : CTrade) (ticket ticket_by : ℕ) : Bool × CTrade :=
  match s.positions.find? (fun p => p.ticket = ticket),
        s.positions.find? (fun p => p.ticket = ticket_by) with
  | none, _ =>
      (false, { s with last_result := { s.last_result with
        retcode := RetCode.INVALID_ORDER, comment := "Position not found" } })
  | _, none =>
      (false, { s with last_result := { s.last_result with
        retcode := RetCode.INVALID_ORDER, comment := "Position not found" } })
  | some pos1, some pos2 =>
      if pos1.symbol ≠ pos2.symbol then
        (false, { s with last_result := { s.last_result with
          retcode := RetCode.INVALID, comment := "Positions must be on same symbol" } })
      else if pos1.type = pos2.type then
        (false, { s with last_result := { s.last_result with
          retcode := RetCode.INVALID, comment := "Positions must be opposite types" } })
      else
        let request := { MqlTradeRequest.ctor with
          action := TradeAction.CLOSE_BY, position := ticket, position_by := ticket_by
          magic := s.magic_number }
        let s := { s with last_request := request }
        let volume := min pos1.volume pos2.volume
        match getSymbolInfo s pos1.symbol with
        | none =>
            (false, { s with last_result := { s.last_result with
              retcode := RetCode.INVALID, comment := "Symbol not found" } })
        | some info =>
            let price := info.Bid
            let r := internalPositionClose s ticket volume price
            if r.1 then (true, (internalPositionClose r.2 ticket_by volume price).2)
            else (false, r.2)

/-- `CTrade::OrderOpen` (trade.cpp lines 284-326). -/
def orderOpen (s : CTrade) (symbol : String) (order_type : OrderType)
    (volume limit_price stop_price sl tp : ℚ) (type_time : OrderTypeTime)
    (expiration : ℤ) (comment : String) : Bool × CTrade :=
  let request := { MqlTradeRequest.ctor with
    action := TradeAction.PENDING, symbol := symbol, type := order_type
    volume := volume, price := limit_price, stoplimit := stop_price
    sl := sl, tp := tp, type_filling := s.type_filling, type_time := type_time
    expiration := expiration, magic := s.magic_number, comment := comment }
  let s := { s with last_request := request }
  let c := checkRequest s request
  let s := { s with last_check := c.2 }
  if ¬c.1 then
    (false, { s with last_result := { s.last_result with
      retcode := c.2.retcode, comment := c.2.comment } })
  else executeRequest s request

/-- `CTrade::OrderModify` (trade.cpp lines 328-367). -/
def orderModify (s : CTrade) (ticket : ℕ) (price sl tp stop_limit : ℚ)
    (expiration : ℤ) : Bool × CTrade :=
  match s.orders.find? (fun o => o.ticket = ticket) with
  | none =>
      (false, { s with last_result := { s.last_result with
        retcode := RetCode.INVALID_ORDER, comment := "Order not found" } })
  | some _ =>
      let request := { MqlTradeRequest.ctor with
        action := TradeAction.MODIFY, order := ticket, price := price
        stoplimit := stop_limit, sl := sl, tp := tp, expiration := expiration
        magic := s.magic_number }
      let s := { s with last_request := request }
      let s := { s with orders := s.orders.map (fun (o : OrderInfo) =>
        if o.ticket = ticket then
          let o := if price > 0 then o.setPriceOpen price else o
          let o := if sl > 0 then o.setStopLoss sl else o
          let o := if tp > 0 then o.setTakeProfit tp else o
          let o := if stop_limit > 0 then o.setPriceStopLimit stop_limit else o
          let o := if expiration > 0 then { o with time_expiration := expiration } else o
          o
        else o) }
      (true, { s with last_result := { s.last_result with
        retcode := RetCode.DONE, order := ticket, comment := "Order modified" } })

/-- `CTrade::OrderDelete` (trade.cpp lines 369-400). -/
def orderDelete (s : CTrade) (ticket : ℕ) : Bool × CTrade :=
  match s.orders.find? (fun o => o.ticket = ticket) with
  | none =>
      (false, { s with last_result := { s.last_result with
        retcode := RetCode.INVALID_ORDER, comment := "Order not found" } })
  | some order =>
      let request := { MqlTradeRequest.ctor with
        action := TradeAction.REMOVE, order := ticket, magic := s.magic_number }
      let s := { s with last_request := request }
      let order := { order with state := OrderState.CANCELED, time_done := s.current_time_us }
      let s := { s with
        history_orders := s.history_orders ++ [order]
        orders := s.orders.filter (fun o => o.ticket ≠ ticket) }
      (true, { s with last_result := { s.last_result with
        retcode := RetCode.DONE, comment := "Order deleted" } })

/-- `CTrade::UpdatePrices` (trade.cpp lines 446-473). -/
def updatePrices (s : CTrade) (symbol : String) (bid ask : ℚ) (timestamp : ℤ) :
    CTrade :=
  match s.symbol_name_to_id.lookup symbol with
  | none => s
  | some id =>
      match s.symbols.lookup id with
      | none => s
      | some info =>
          let info := info.updatePrice bid ask timestamp
          let s := { s with
            symbols := s.symbols.map (fun (q : ℕ × SymbolInfo) =>
              if q.1 = id then (id, info) else q) }
          let s := if timestamp > 0 then { s with current_time_us := timestamp } else s
          let s := { s with positions := s.positions.map (fun (p : PositionInfo) =>
            if p.symbol = symbol then
              p.updatePrice (if p.type = PositionType.BUY then bid else ask)
            else p) }
          updateEquityLedger s

/-- The public ledger commands named by the specification. -/
inductive Command
  | positionOpen (symbol : String) (order_type : OrderType)
      (volume price sl tp : ℚ) (comment : String)
  | positionModify (ticket : ℕ) (sl tp : ℚ)
  | positionClose (ticket : ℕ) (deviation : ℕ)
  | positionClosePartial (ticket : ℕ) (volume : ℚ) (deviation : ℕ)
  | positionCloseBy (ticket ticket_by : ℕ)
  | orderOpen (symbol : String) (order_type : OrderType)
      (volume limit_price stop_price sl tp : ℚ) (type_time : OrderTypeTime)
      (expiration : ℤ) (comment : String)
  | orderModify (ticket : ℕ) (price sl tp stop_limit : ℚ) (expiration : ℤ)
  | orderDelete (ticket : ℕ)
  | updatePrices (symbol : String) (bid ask : ℚ) (timestamp : ℤ)

/-- Dispatch of a public ledger command to its implementation (the returned
bool of the C++ API is dropped; it is recoverable from `last_result`). -/
def applyCommand (c : Command) (s : CTrade) : CTrade :=
  match c with
  | Command.positionOpen symbol order_type volume price sl tp comment =>
      (positionOpen s symbol order_type volume price sl tp comment).2
  | Command.positionModify ticket sl tp => (positionModify s ticket sl tp).2
  | Command.positionClose ticket deviation => (positionClose s ticket deviation).2
  | Command.positionClosePartial ticket volume deviation =>
      (positionClosePartial s ticket volume deviation).2
  | Command.positionCloseBy ticket ticket_by => (positionCloseBy s ticket ticket_by).2
  | Command.orderOpen symbol order_type volume limit_price stop_price sl tp tt e cm =>
      (orderOpen s symbol order_type volume limit_price stop_price sl tp tt e cm).2
  | Command.orderModify ticket price sl tp stop_limit expiration =>
      (orderModify s ticket price sl tp stop_limit expiration).2
  | Command.orderDelete ticket => (orderDelete s ticket).2
  | Command.updatePrices symbol bid ask timestamp => updatePrices s symbol bid ask timestamp

/-- The equity bookkeeping invariant maintained by the ledger: the account's
equity is the balance plus the (unconverted) sum of the open positions'
fixed-point profits. -/
def equityInv (s : CTrade) : Prop :=
  s.account.equity = s.account.balance + s.positions.foldl (fun acc p => acc + p.profit) 0

/-- All tickets recorded anywhere in the ledger state. -/
def allTickets (s : CTrade) : List ℕ :=
  s.positions.map (fun p => p.ticket) ++ s.orders.map (fun o => o.ticket) ++
    s.deals.map (fun d => d.ticket) ++ s.history_orders.map (fun o => o.ticket)

/-- Every recorded ticket is below the counter. -/
def ticketsBounded (s : CTrade) : Prop :=
  ∀ t ∈ allTickets s, t < s.next_ticket

end CTrade

end Trade

/-! ## core/write_ahead_log.hpp

The WAL file is a byte sequence, modelled as `List ℕ` with each element a
byte value. `WALEntryHeader` is declared as `{uint32 magic; uint8 type;
uint32 length; uint32 crc32}` with `SIZE = 13`, but `append`/`read_all`
transfer `SIZE` bytes of the in-memory struct, whose layout under the
C++ alignment rules is magic at offsets 0-3, type at 4, three padding bytes
at 5-7, length at 8-11 and crc32 at 12-15; so the 13 transferred bytes end
at the *first* byte of crc32. `appendBytes` reproduces that actual layout
(with the written padding bytes as parameters); `appendBytesDocumented`
reproduces the packed layout documented in the header comment and the
specification. -/

namespace WAL

/-- `WALEntryHeader::MAGIC` (0x48515457). -/
def MAGIC : ℕ := 0x48515457

/-- The CRC32 polynomial 0xEDB88320 (IEEE 802.3). -/
def CRC_POLY : ℕ := 0xEDB88320

/-- One bit-step of the CRC table construction:
`crc = (crc >> 1) ^ ((crc & 1) ? polynomial : 0)`. -/
def crcStep (crc : ℕ) : ℕ :=
  (crc >>> 1) ^^^ (if crc % 2 = 1 then CRC_POLY else 0)

/-- `crc_table[i]`: eight bit-steps applied to the index. -/
def crcTableEntry (i : ℕ) : ℕ :=
  crcStep (crcStep (crcStep (crcStep (crcStep (crcStep (crcStep (crcStep i)))))))

/-- `WriteAheadLog::calculate_crc32` (write_ahead_log.hpp lines 444-473):
initial value 0xFFFFFFFF, table-driven update, final complement. -/
def calculate_crc32 (data : List ℕ) : ℕ :=
  (data.foldl (fun crc b => (crc >>> 8) ^^^ crcTableEntry ((crc ^^^ b) % 256)) 0xFFFFFFFF)
    ^^^ 0xFFFFFFFF

/-- Little-endian bytes of a `uint32`. -/
def toLE4 (n : ℕ) : List ℕ :=
  [n % 256, n / 256 % 256, n / 65536 % 256, n / 16777216 % 256]

/-- Recompose a `uint32` from its little-endian bytes. -/
def fromLE4 (b0 b1 b2 b3 : ℕ) : ℕ :=
  b0 + 256 * b1 + 65536 * b2 + 16777216 * b3

/-- The 13 bytes that `WriteAheadLog::append` actually writes for the header
(13 bytes of the padded 16-byte struct): magic, type, the three padding
bytes (indeterminate; passed as `pad`), length, and only the first byte of
the CRC32. -/
def appendBytes (type : ℕ) (data : List ℕ) (pad : List ℕ) : List ℕ :=
  toLE4 MAGIC ++ [type % 256] ++ pad ++ toLE4 data.length ++
    [calculate_crc32 data % 256] ++ data

/-- The record layout documented in write_ahead_log.hpp lines 49-61 and the
specification (§4.M): `[magic:4][type:1][length:4][crc32:4][payload]`. -/
def appendBytesDocumented (type : ℕ) (data : List ℕ) : List ℕ :=
  toLE4 MAGIC ++ [type % 256] ++ toLE4 data.length ++ toLE4 (calculate_crc32 data) ++ data

/-- Errors raised by `read_all` (each surfaces as a `WALError`). -/
inductive ReadError
  | invalidMagic
  | incompleteData
  | crcMismatch
  deriving DecidableEq, Repr

/-- The `read_all` scan loop over the actual on-disk layout
(write_ahead_log.hpp lines 286-317): per iteration read 13 header bytes
(fewer remaining is an incomplete entry and stops the scan), check the
magic, take `length` payload bytes, check the CRC. In the actual layout the
13th header byte is the first byte of the struct's `crc32` field; the upper
three bytes of that field keep whatever the stack held, so the compared
stored CRC is `b12 + 256 * garbage` for an indeterminate 24-bit `garbage`.
Fuel counts loop iterations (one record each). -/
def readLoop (garbage : ℕ) : ℕ → List ℕ → Except ReadError (List (ℕ × List ℕ))
  | _, [] => .ok []
  | 0, _ :: _ => .ok []
  | fuel + 1, b0 :: b1 :: b2 :: b3 :: b4 :: _b5 :: _b6 :: _b7 :: b8 :: b9 :: b10 :: b11 :: b12 :: rest =>
      if fromLE4 b0 b1 b2 b3 ≠ MAGIC then .error .invalidMagic
      else
        let type := b4
        let length := fromLE4 b8 b9 b10 b11
        let crc_stored := b12 + 256 * garbage
        if rest.length < length then .error .incompleteData
        else
          let data := rest.take length
          if 0 < length ∧ calculate_crc32 data ≠ crc_stored then .error .crcMismatch
          else
            match readLoop garbage fuel (rest.drop length) with
            | .ok tail => .ok ((type, data) :: tail)
            | .error e => .error e
  | _ + 1, _ => .ok []

/-- `WriteAheadLog::read_all` over the actual layout. -/
def read_all (bytes : List ℕ) (garbage : ℕ) : Except ReadError (List (ℕ × List ℕ)) :=
  readLoop garbage bytes.length bytes

/-- The same scan loop over the documented packed layout: length at offsets
5-8 and the full CRC32 at offsets 9-12. -/
def readLoopDocumented : ℕ → List ℕ → Except ReadError (List (ℕ × List ℕ))
  | _, [] => .ok []
  | 0, _ :: _ => .ok []
  | fuel + 1, b0 :: b1 :: b2 :: b3 :: b4 :: b5 :: b6 :: b7 :: b8 :: b9 :: b10 :: b11 :: b12 :: rest =>
      if fromLE4 b0 b1 b2 b3 ≠ MAGIC then .error .invalidMagic
      else
        let type := b4
        let length := fromLE4 b5 b6 b7 b8
        let crc_stored := fromLE4 b9 b10 b11 b12
        if rest.length < length then .error .incompleteData
        else
          let data := rest.take length
          if 0 < length ∧ calculate_crc32 data ≠ crc_stored then .error .crcMismatch
          else
            match readLoopDocumented fuel (rest.drop length) with
            | .ok tail => .ok ((type, data) :: tail)
            | .error e => .error e
  | _ + 1, _ => .ok []

/-- `read_all` over the documented packed layout. -/
def read_allDocumented (bytes : List ℕ) : Except ReadError (List (ℕ × List ℕ)) :=
  readLoopDocumented bytes.length bytes

/-- Concatenation of appended records in the documented layout. -/
def appendAllDocumented (entries : List (ℕ × List ℕ)) : List ℕ :=
  match entries with
  | [] => []
  | e :: rest => appendBytesDocumented e.1 e.2 ++ appendAllDocumented rest

/-- Well-formedness of an appended entry: the type fits a `uint8` and the
payload length fits the `uint32` length field. -/
def entryWF (e : ℕ × List ℕ) : Prop :=
  e.1 < 256 ∧ e.2.length < 4294967296

instance (e : ℕ × List ℕ) : Decidable (entryWF e) :=
  inferInstanceAs (Decidable (e.1 < 256 ∧ e.2.length < 4294967296))

end WAL

/-! ## Specification-side definitions and concrete scenario states -/

namespace Trade.CTrade

/-- Modelled from the spec (§4.K Equity): "equity = balance + Σ
position.profit with the conversion rule that each position's profit is in
its profit currency and is converted to the account currency using the
CurrencyConverter before summing." Returns `none` when a position's symbol
is unknown or its profit currency cannot be converted. This definition
follows the specification's words; it is the comparison point for the
code's `CTrade::UpdateEquity`, which performs no conversion. -/
def equityPerSpecWithConversion (conv : Currency.CurrencyConverter) (s : CTrade) :
    Option ℚ :=
  let converted := s.positions.mapM (fun p =>
    match getSymbolInfo s p.symbol with
    | none => none
    | some info =>
        match Currency.convert conv p.Profit info.currency_profit s.account.currency with
        | .ok v => some v
        | .error _ => none)
  match converted with
  | none => none
  | some l => some (s.account.Balance + l.foldl (· + ·) 0)

/-- Relation between two ledger states describing one command step from the
point of view of the ticket counter: the counter does not decrease, and
(when all recorded tickets start below the counter) it stays an upper bound,
with every ticket of the new state either carried over or freshly drawn from
the counter interval. -/
def ticketEvolution (s s' : CTrade) : Prop :=
  s.next_ticket ≤ s'.next_ticket ∧
  (ticketsBounded s → ticketsBounded s' ∧
    ∀ t ∈ allTickets s', t ∈ allTickets s ∨
      (s.next_ticket ≤ t ∧ t < s'.next_ticket))

end Trade.CTrade

namespace Scenario

open Trade Trade.CTrade

/-- Cost models that return 0 everywhere (the `Zero*` model variants). -/
def zeroModels : Costs.CostModels :=
  { slippageCalc := fun _ _ _ _ => 0
    commissionCalc := fun _ _ _ _ => 0
    spreadCalc := fun _ _ _ => 0 }

/-- Cost models with a fixed slippage of 2 (points already scaled). -/
def slipModels : Costs.CostModels :=
  { slippageCalc := fun _ _ _ _ => 2
    commissionCalc := fun _ _ _ _ => 0
    spreadCalc := fun _ _ _ => 0 }

/-- A five-digit FX symbol (EURUSD-like, stops level 50 points). -/
def eurusd : SymbolInfo :=
  { name := "EURUSD", symbol_id := 1
    bid := 0, ask := 0, bid_high := 0, bid_low := 0, ask_high := 0, ask_low := 0
    time := 0, digits := 5, point := 1/100000, spread := 0
    contract_size := 100000
    volume_min := 1/100, volume_max := 100, volume_step := 1/100
    stops_level := 50, freeze_level := 0
    currency_base := "EUR", currency_profit := "USD", currency_margin := "EUR" }

/-- A five-digit cross whose profit currency (GBP) differs from the account
currency (USD). -/
def eurgbp : SymbolInfo :=
  { name := "EURGBP", symbol_id := 2
    bid := 0, ask := 0, bid_high := 0, bid_low := 0, ask_high := 0, ask_low := 0
    time := 0, digits := 5, point := 1/100000, spread := 0
    contract_size := 100000
    volume_min := 1/100, volume_max := 100, volume_step := 1/100
    stops_level := 0, freeze_level := 0
    currency_base := "EUR", currency_profit := "GBP", currency_margin := "EUR" }

/-- A USD ledger holding one 0.1-lot BUY EURUSD position (ticket 1000,
no stops), market at bid 1.10000 / ask 1.10020. -/
def ledgerEURUSD : CTrade :=
  let s := registerSymbol (CTrade.ctor 10000 "USD" 100) eurusd
  let s := updatePrices s "EURUSD" (110000/100000) (110020/100000) 1000000
  (positionOpen s "EURUSD" OrderType.BUY (1/10) 0 0 0 "").2

/-- A USD ledger holding one 0.1-lot BUY EURGBP position (ticket 1000),
opened at ask 0.90010 with market bid 0.90000. -/
def ledgerEURGBP : CTrade :=
  let s := registerSymbol (CTrade.ctor 10000 "USD" 100) eurgbp
  let s := updatePrices s "EURGBP" (90000/100000) (90010/100000) 1000000
  (positionOpen s "EURGBP" OrderType.BUY (1/10) 0 0 0 "").2

/-- A converter knowing only GBP/USD at 1.25. -/
def gbpusdConv : Currency.CurrencyConverter :=
  Currency.register_pair Currency.emptyConverter "GBP" "USD" (5/4)

/-- The converter of scenario S3: EUR/USD at 1.10 and USD/JPY at 150. -/
def s3Conv : Currency.CurrencyConverter :=
  Currency.register_pair
    (Currency.register_pair Currency.emptyConverter "EUR" "USD" (11/10)) "USD" "JPY" 150

/-- A tick at bid 1.09000 / ask 1.09015 (fixed-point, 5 digits). -/
def gapTick : Tick :=
  { timestamp_us := 1000000, bid := 109000, ask := 109015
    bid_volume := 0, ask_volume := 0, symbol_id := 1, spread_points := 15 }

/-- A BUY position opened at 1.10000 with SL 1.09500 (scenario S2). -/
def gapPosition : Costs.Position :=
  { ticket := 1, symbol_id := 1, type := PositionType.BUY, volume := 1
    open_price := 110000, sl := 109500, tp := 0, open_time_us := 0
    commission := 0, swap := 0 }

/-- A BUY_STOP pending order at exactly 1.09015 (the tick's ask). -/
def stopOrder : Costs.PendingOrder :=
  { ticket := 2, symbol_id := 1, type := OrderType.BUY_STOP, volume := 1
    price := 109015, sl := 0, tp := 0, timestamp_us := 0 }

/-- A SELL_LIMIT pending order at exactly 1.09000 (the tick's bid). -/
def limitOrder : Costs.PendingOrder :=
  { ticket := 3, symbol_id := 1, type := OrderType.SELL_LIMIT, volume := 1
    price := 109000, sl := 0, tp := 0, timestamp_us := 0 }

end Scenario

/-! # Theorems -/

/-! ## Fixed-point division (C9) -/

/-- Rounding bookkeeping in ℕ: adding half the divisor before dividing is
the same as the nearest-integer division `(2a + b) / (2b)`. -/
theorem natHalfDivisor (a b : ℕ) : (a + b / 2) / b = (2 * a + b) / (2 * b) := by
  rw [← Nat.div_div_eq_div_mul]
  have h2 : (2 * a + b) / 2 = b / 2 + a := by
    rw [Nat.add_comm (2 * a) b, Nat.add_mul_div_left b a (by norm_num)]
  rw [h2, Nat.add_comm (b / 2) a]

/-- The half-divisor adjusted truncated division of nonnegative operands is
nearest-integer division. -/
theorem tdivHalfNonneg (n d : ℤ) (hn : 0 ≤ n) (hd : 0 < d) :
    (n + d.tdiv 2).tdiv d = (2 * n + d) / (2 * d) := by
  lift n to ℕ using hn
  lift d to ℕ using hd.le
  have hd' : 0 < d := by exact_mod_cast hd
  have e1 : ((d : ℕ) : ℤ).tdiv 2 = ((d / 2 : ℕ) : ℤ) := by
    rw [Int.ofNat_tdiv]
    norm_num
  rw [e1, ← Nat.cast_add, ← Int.ofNat_tdiv]
  have e2 : (2 * (n : ℤ) + d) = ((2 * n + d : ℕ) : ℤ) := by push_cast; ring
  have e3 : (2 * (d : ℤ)) = ((2 * d : ℕ) : ℤ) := by push_cast; ring
  rw [e2, e3, ← Int.natCast_div]
  exact_mod_cast natHalfDivisor n d

/-- Claim C9: the fixed-point `divide` and `divide_int` are total — dividing
by zero returns 0 — and for a non-zero divisor the quotient is the
half-divisor-rounded (round half away from zero) truncated division of the
numerator scaled by `10^(result_digits - digits_a + digits_b)`. -/
theorem fixedPoint_division_total :
    (∀ a : ℤ, FixedPoint.divide_int a 0 = 0) ∧
    (∀ a digits_a digits_b result_digits : ℤ,
      FixedPoint.divide a 0 digits_a digits_b result_digits = 0) ∧
    (∀ a b digits_a digits_b result_digits : ℤ, b ≠ 0 →
      FixedPoint.divide a b digits_a digits_b result_digits =
        FixedPoint.divide_int
          (FixedPoint.scale_numerator a (result_digits - digits_a + digits_b)) b) ∧
    (∀ n d : ℤ, 0 ≤ n → 0 < d →
      FixedPoint.divide_int n d = (2 * n + d) / (2 * d)) ∧
    (∀ n d : ℤ, 0 ≤ n → 0 < d →
      FixedPoint.divide_int (-n) d = -((2 * n + d) / (2 * d))) := by
  refine ⟨fun a => by simp [FixedPoint.divide_int],
          fun a da db rd => by simp [FixedPoint.divide],
          fun a b da db rd hb => by simp [FixedPoint.divide, FixedPoint.divide_int, hb],
          fun n d hn hd => ?_, fun n d hn hd => ?_⟩
  · have h1 : decide (n < 0) = false := by simpa using not_lt.mpr hn
    have h2 : decide (d < 0) = false := by simpa using not_lt.mpr hd.le
    simp only [FixedPoint.divide_int, if_neg hd.ne', h1, h2, ne_eq,
      not_true_eq_false, if_false, not_false_eq_true, if_neg]
    exact tdivHalfNonneg n d hn hd
  · rcases eq_or_lt_of_le hn with h0 | hpos
    · subst h0
      have h1 : decide ((-0 : ℤ) < 0) = false := by norm_num
      have h2 : decide ((0 : ℤ) < 0) = false := by norm_num
      have h3 : decide (d < 0) = false := by simpa using not_lt.mpr hd.le
      have hz : FixedPoint.divide_int 0 d = 0 := by
        have := tdivHalfNonneg 0 d le_rfl hd
        simp only [FixedPoint.divide_int, if_neg hd.ne', h2, h3] at this ⊢
        simp only [ne_eq, not_true_eq_false, if_false] at this ⊢
        rw [this]
        exact Int.ediv_eq_zero_of_lt (by positivity) (by linarith)
      rw [neg_zero, hz]
      rw [show (2 * (0 : ℤ) + d) = d by ring]
      rw [Int.ediv_eq_zero_of_lt hd.le (by linarith)]
      norm_num
    · have h1 : decide (-n < 0) = true := by simpa using neg_neg_of_pos hpos
      have h2 : decide (d < 0) = false := by simpa using not_lt.mpr hd.le
      simp only [FixedPoint.divide_int, if_neg hd.ne', h1, h2]
      have hcond : (true ≠ false) = True := by simp
      simp only [ne_eq, Bool.true_eq_false, not_false_eq_true, if_true]
      rw [show -n + -(d.tdiv 2) = -(n + d.tdiv 2) by ring, Int.neg_tdiv]
      rw [tdivHalfNonneg n d hn hd]

/-- Witness for C9 at concrete inputs. -/
theorem fixedPoint_division_total_witness :
    FixedPoint.divide 1 4 0 0 2 =
      FixedPoint.divide_int (FixedPoint.scale_numerator 1 2) 4 ∧
    FixedPoint.divide_int 7 3 = (2 * 7 + 3) / (2 * 3) ∧
    FixedPoint.divide_int (-7) 3 = -((2 * 7 + 3) / (2 * 3)) :=
  ⟨fixedPoint_division_total.2.2.1 1 4 0 0 2 (by decide),
   fixedPoint_division_total.2.2.2.1 7 3 (by decide) (by decide),
   fixedPoint_division_total.2.2.2.2 7 3 (by decide) (by decide)⟩

/-! ## Global clock (C5) -/

/-- Characterization of the running minimum in `can_advance`: the target is
below the fold result exactly when it is below the accumulator and below
every entry with a different id. -/
theorem minExcluding_le_iff (id : ℕ) (target : ℤ) (l : List (ℕ × ℤ)) :
    ∀ acc : ℤ,
      (target ≤ l.foldl (fun acc p => if p.1 ≠ id then min acc p.2 else acc) acc ↔
        target ≤ acc ∧ ∀ p ∈ l, p.1 ≠ id → target ≤ p.2) := by
  induction l with
  | nil => simp
  | cons p rest ih =>
      intro acc
      simp only [List.foldl_cons]
      by_cases hp : p.1 = id
      · rw [if_neg (by simp [hp]), ih]
        simp [hp]
      · rw [if_pos hp, ih, le_min_iff]
        simp only [List.forall_mem_cons]
        tauto

/-- Claim C5 (amended): when at least two symbols are tracked, `can_advance`
returns true exactly when the target is at most every other tracked symbol's
timestamp (equivalently, the minimum among them); when at most one symbol is
tracked it returns true for every id and target. -/
theorem globalClock_can_advance :
    (∀ (m : GlobalClock.TimestampMap) (id : ℕ) (target : ℤ),
      (∀ p ∈ m, p.2 ≤ GlobalClock.INT64_MAX) → 2 ≤ m.length →
      (m.map Prod.fst).Nodup →
      (GlobalClock.can_advance m id target = true ↔
        ∀ p ∈ m, p.1 ≠ id → target ≤ p.2)) ∧
    (∀ (m : GlobalClock.TimestampMap) (id : ℕ) (target : ℤ),
      m.length ≤ 1 → GlobalClock.can_advance m id target = true) := by
  constructor
  · intro m id target hbound hlen hnodup
    have hgt : ¬ m.length ≤ 1 := by omega
    rw [GlobalClock.can_advance, if_neg hgt]
    rw [decide_eq_true_iff, GlobalClock.min_excluding, minExcluding_le_iff]
    constructor
    · exact fun h => h.2
    · intro h
      refine ⟨?_, h⟩
      obtain ⟨a, b, rest, rfl⟩ : ∃ a b rest, m = a :: b :: rest := by
        match m, hlen with
        | a :: b :: rest, _ => exact ⟨a, b, rest, rfl⟩
      by_cases ha : a.1 = id
      · have h1 : a.1 ∉ List.map Prod.fst (b :: rest) := by
          have h := hnodup
          simp only [List.map_cons, List.nodup_cons] at h
          simpa using h.1
        have hab : a.1 ≠ b.1 := fun h => h1 (by simp [h])
        have hb : b.1 ≠ id := fun hbid => hab (by rw [ha, hbid])
        calc target ≤ b.2 := h b (by simp) hb
          _ ≤ GlobalClock.INT64_MAX := hbound b (by simp)
      · calc target ≤ a.2 := h a (by simp) ha
          _ ≤ GlobalClock.INT64_MAX := hbound a (by simp)
  · intro m id target hlen
    rw [GlobalClock.can_advance, if_pos hlen]

/-- Counterexample to C5 as frozen: with exactly one tracked symbol and a
foreign id, `can_advance` returns true even though the target exceeds the
minimum timestamp among the tracked symbols other than that id. -/
theorem globalClock_can_advance_counterexample :
    GlobalClock.can_advance [(1, 1000000)] 2 2000000 = true ∧
    ¬ (∀ p ∈ [((1 : ℕ), (1000000 : ℤ))], p.1 ≠ 2 → (2000000 : ℤ) ≤ p.2) := by
  constructor
  · decide
  · intro h
    exact absurd (h (1, 1000000) (by simp) (by decide)) (by decide)

/-- Witness for C5 at the S4 scenario values. -/
theorem globalClock_can_advance_witness :
    GlobalClock.can_advance [(1, 1000000), (2, 999000)] 2 999500 = true ∧
    GlobalClock.can_advance [(1, 1000000), (2, 999000)] 1 1001000 = false := by
  have h2 := globalClock_can_advance.1 [(1, 1000000), (2, 999000)] 2 999500
    (by decide) (by decide) (by decide)
  have h1 := globalClock_can_advance.1 [(1, 1000000), (2, 999000)] 1 1001000
    (by decide) (by decide) (by decide)
  refine ⟨h2.mpr (by decide), ?_⟩
  cases hh : GlobalClock.can_advance [(1, 1000000), (2, 999000)] 1 1001000 with
  | false => rfl
  | true => exact absurd (h1.mp hh) (by decide)

/-! ## Currency converter (C6) -/

/-- Claim C6: with exactly EUR/USD at 1.10 and USD/JPY at 150 registered,
`convert(100, EUR, JPY)` goes through the BFS path EUR → USD → JPY,
multiplying along the forward edges, and returns 16500; converting from an
unreachable currency fails with the no-path error. -/
theorem currencyConverter_multiHop :
    Currency.convert Scenario.s3Conv 100 "EUR" "JPY" = Except.ok 16500 ∧
    Currency.find_path Scenario.s3Conv "EUR" "JPY" = ["EUR", "USD", "JPY"] ∧
    Currency.applyHops Scenario.s3Conv 100 ["EUR", "USD", "JPY"] = Except.ok 16500 ∧
    Currency.convert Scenario.s3Conv 100 "GBP" "JPY" =
      Except.error Currency.ConvErr.noPath := by
  refine ⟨by with_unfolding_all rfl, by decide, by with_unfolding_all rfl,
    by with_unfolding_all rfl⟩

/-! ## Costs engine (C2, C3) -/

/-- Claim C2: a BUY position with a positive stop loss and a tick at or below
it always triggers; the trigger price is `min(tick.bid, sl)` and the fill is
the trigger minus the close-side slippage, so with non-negative slippage the
close fills at or below the stop level — and at or below the gapped market
price. -/
theorem costsEngine_gap_through_stop (m : Costs.CostModels)
    (position : Costs.Position) (tick : Tick) (info : SymbolInfo)
    (hty : position.type = PositionType.BUY) (hsl : 0 < position.sl)
    (hbid : tick.bid ≤ position.sl) :
    (Costs.evaluate_position m position tick info).executed = true ∧
    (Costs.evaluate_position m position tick info).fill_price =
      min tick.bid position.sl -
        m.slippageCalc PositionType.SELL position.volume tick info ∧
    (0 ≤ m.slippageCalc PositionType.SELL position.volume tick info →
      (Costs.evaluate_position m position tick info).fill_price ≤ position.sl) ∧
    (0 ≤ m.slippageCalc PositionType.SELL position.volume tick info →
      (Costs.evaluate_position m position tick info).fill_price ≤ tick.bid) := by
  have hres : Costs.evaluate_position m position tick info =
      { executed := true
        fill_price := min tick.bid position.sl -
          m.slippageCalc PositionType.SELL position.volume tick info
        slippage := m.slippageCalc PositionType.SELL position.volume tick info
        commission := m.commissionCalc PositionType.SELL position.volume
          (min tick.bid position.sl -
            m.slippageCalc PositionType.SELL position.volume tick info) info
        spread_cost := m.spreadCalc tick info tick.timestamp_us } := by
    rw [Costs.evaluate_position]
    simp [hty, hsl, hbid]
  refine ⟨by rw [hres], by rw [hres], fun hs => ?_, fun hs => ?_⟩
  · rw [hres]
    have := min_le_right tick.bid position.sl
    simp only
    linarith
  · rw [hres]
    have := min_le_left tick.bid position.sl
    simp only
    linarith

/-- Witness for C2 at the S2 gap scenario. -/
theorem costsEngine_gap_through_stop_witness :
    (Costs.evaluate_position Scenario.slipModels Scenario.gapPosition
      Scenario.gapTick Scenario.eurusd).executed = true ∧
    (Costs.evaluate_position Scenario.slipModels Scenario.gapPosition
      Scenario.gapTick Scenario.eurusd).fill_price ≤ 109500 :=
  ⟨(costsEngine_gap_through_stop Scenario.slipModels Scenario.gapPosition
      Scenario.gapTick Scenario.eurusd (by decide) (by decide) (by decide)).1,
   (costsEngine_gap_through_stop Scenario.slipModels Scenario.gapPosition
      Scenario.gapTick Scenario.eurusd (by decide) (by decide) (by decide)).2.2.1
      (by decide)⟩

/-- Claim C3: trigger comparisons are inclusive — a BUY_STOP whose price
equals the tick's ask triggers with trigger price `tick.ask`, and a
SELL_LIMIT whose price equals the tick's bid triggers with trigger price the
order's limit price; the fill adds the slippage for the buy and subtracts it
for the sell. -/
theorem costsEngine_inclusive_triggers (m : Costs.CostModels)
    (order : Costs.PendingOrder) (tick : Tick) (info : SymbolInfo) :
    (order.type = OrderType.BUY_STOP → tick.ask = order.price →
      (Costs.evaluate_order m order tick info).executed = true ∧
      (Costs.evaluate_order m order tick info).fill_price =
        tick.ask + m.slippageCalc PositionType.BUY order.volume tick info) ∧
    (order.type = OrderType.SELL_LIMIT → tick.bid = order.price →
      (Costs.evaluate_order m order tick info).executed = true ∧
      (Costs.evaluate_order m order tick info).fill_price =
        order.price - m.slippageCalc PositionType.SELL order.volume tick info) := by
  constructor
  · intro hty heq
    have hres : Costs.evaluate_order m order tick info =
        { executed := true
          fill_price := tick.ask + m.slippageCalc PositionType.BUY order.volume tick info
          slippage := m.slippageCalc PositionType.BUY order.volume tick info
          commission := m.commissionCalc PositionType.BUY order.volume
            (tick.ask + m.slippageCalc PositionType.BUY order.volume tick info) info
          spread_cost := m.spreadCalc tick info tick.timestamp_us } := by
      rw [Costs.evaluate_order]
      simp [hty, heq.ge]
    exact ⟨by rw [hres], by rw [hres]⟩
  · intro hty heq
    have hres : Costs.evaluate_order m order tick info =
        { executed := true
          fill_price := order.price - m.slippageCalc PositionType.SELL order.volume tick info
          slippage := m.slippageCalc PositionType.SELL order.volume tick info
          commission := m.commissionCalc PositionType.SELL order.volume
            (order.price - m.slippageCalc PositionType.SELL order.volume tick info) info
          spread_cost := m.spreadCalc tick info tick.timestamp_us } := by
      rw [Costs.evaluate_order]
      simp [hty, heq.ge]
    exact ⟨by rw [hres], by rw [hres]⟩

/-- Witness for C3 at boundary ticks. -/
theorem costsEngine_inclusive_triggers_witness :
    (Costs.evaluate_order Scenario.slipModels Scenario.stopOrder
      Scenario.gapTick Scenario.eurusd).fill_price = 109017 ∧
    (Costs.evaluate_order Scenario.slipModels Scenario.limitOrder
      Scenario.gapTick Scenario.eurusd).fill_price = 108998 := by
  have h1 := (costsEngine_inclusive_triggers Scenario.slipModels Scenario.stopOrder
    Scenario.gapTick Scenario.eurusd).1 (by decide) (by decide)
  have h2 := (costsEngine_inclusive_triggers Scenario.slipModels Scenario.limitOrder
    Scenario.gapTick Scenario.eurusd).2 (by decide) (by decide)
  exact ⟨h1.2.trans (by decide), h2.2.trans (by decide)⟩

/-! ## Ledger modify commands (C10, C4) -/

section ModifyLemmas

open Trade Trade.CTrade

/-- `SetTakeProfit` does not touch the stop loss. -/
theorem setTakeProfit_stop_loss (p : PositionInfo) (tp : ℚ) :
    (p.setTakeProfit tp).stop_loss = p.stop_loss := by
  simp [PositionInfo.setTakeProfit, PositionInfo.setTimeUpdate]

/-- `SetStopLoss` does not touch the take profit. -/
theorem setStopLoss_take_profit (p : PositionInfo) (sl : ℚ) :
    (p.setStopLoss sl).take_profit = p.take_profit := by
  simp [PositionInfo.setStopLoss, PositionInfo.setTimeUpdate]

/-- Claim C10: zero-valued arguments to the modification commands are
ignored rather than clearing the stored level — `position_modify` with
`sl = 0` leaves every position's stop loss unchanged and with `tp = 0`
leaves every take profit unchanged, and `order_modify` leaves price, stop
loss, take profit, stop-limit and expiration unchanged whenever the
corresponding argument is zero. -/
theorem modify_zero_arguments_ignored :
    (∀ (s : CTrade) (t : ℕ) (tp : ℚ),
      ((positionModify s t 0 tp).2.positions.map fun p => p.stop_loss) =
        s.positions.map fun p => p.stop_loss) ∧
    (∀ (s : CTrade) (t : ℕ) (sl : ℚ),
      ((positionModify s t sl 0).2.positions.map fun p => p.take_profit) =
        s.positions.map fun p => p.take_profit) ∧
    (∀ (s : CTrade) (t : ℕ) (sl tp stop_limit : ℚ) (e : ℤ),
      ((orderModify s t 0 sl tp stop_limit e).2.orders.map fun o => o.price_open) =
        s.orders.map fun o => o.price_open) ∧
    (∀ (s : CTrade) (t : ℕ) (price tp stop_limit : ℚ) (e : ℤ),
      ((orderModify s t price 0 tp stop_limit e).2.orders.map fun o => o.stop_loss) =
        s.orders.map fun o => o.stop_loss) ∧
    (∀ (s : CTrade) (t : ℕ) (price sl stop_limit : ℚ) (e : ℤ),
      ((orderModify s t price sl 0 stop_limit e).2.orders.map fun o => o.take_profit) =
        s.orders.map fun o => o.take_profit) ∧
    (∀ (s : CTrade) (t : ℕ) (price sl tp : ℚ) (e : ℤ),
      ((orderModify s t price sl tp 0 e).2.orders.map fun o => o.price_stoplimit) =
        s.orders.map fun o => o.price_stoplimit) ∧
    (∀ (s : CTrade) (t : ℕ) (price sl tp stop_limit : ℚ),
      ((orderModify s t price sl tp stop_limit 0).2.orders.map fun o => o.time_expiration) =
        s.orders.map fun o => o.time_expiration) := by
  have hpos : ∀ (s : CTrade) (t : ℕ) (sl tp : ℚ) (g : PositionInfo → ℤ),
      ((∀ p u, g (p.setStopLoss u) = g p) ∨ sl = 0) →
      ((∀ p u, g (p.setTakeProfit u) = g p) ∨ tp = 0) →
      ((positionModify s t sl tp).2.positions.map g) = s.positions.map g := by
    intro s t sl tp g hsl htp
    have s1 : ∀ p : PositionInfo, g (if sl > 0 then p.setStopLoss sl else p) = g p := by
      intro p
      rcases hsl with h | h
      · split_ifs with hc
        · exact h p sl
        · rfl
      · subst h; simp
    have s2 : ∀ p : PositionInfo, g (if tp > 0 then p.setTakeProfit tp else p) = g p := by
      intro p
      rcases htp with h | h
      · split_ifs with hc
        · exact h p tp
        · rfl
      · subst h; simp
    cases hf : s.positions.find? (fun p => p.ticket = t) with
    | none => simp [positionModify, hf]
    | some pos =>
        simp only [positionModify, hf, List.map_map]
        refine List.map_congr_left fun p hp => ?_
        by_cases hpt : p.ticket = t
        · simp only [Function.comp, hpt, if_true]
          rw [s2, s1]
        · simp [hpt]
  have hord : ∀ (s : CTrade) (t : ℕ) (pr sl tp u : ℚ) (e : ℤ) (g : OrderInfo → ℤ),
      ((∀ o v, g (o.setPriceOpen v) = g o) ∨ pr = 0) →
      ((∀ o v, g (o.setStopLoss v) = g o) ∨ sl = 0) →
      ((∀ o v, g (o.setTakeProfit v) = g o) ∨ tp = 0) →
      ((∀ o v, g (o.setPriceStopLimit v) = g o) ∨ u = 0) →
      ((∀ (o : OrderInfo) (v : ℤ), g { o with time_expiration := v } = g o) ∨ e = 0) →
      ((orderModify s t pr sl tp u e).2.orders.map g) = s.orders.map g := by
    intro s t pr sl tp u e g h1 h2 h3 h4 h5
    have s1 : ∀ o : OrderInfo, g (if pr > 0 then o.setPriceOpen pr else o) = g o := by
      intro o
      rcases h1 with h | h
      · split_ifs with hc
        · exact h o pr
        · rfl
      · subst h; simp
    have s2 : ∀ o : OrderInfo, g (if sl > 0 then o.setStopLoss sl else o) = g o := by
      intro o
      rcases h2 with h | h
      · split_ifs with hc
        · exact h o sl
        · rfl
      · subst h; simp
    have s3 : ∀ o : OrderInfo, g (if tp > 0 then o.setTakeProfit tp else o) = g o := by
      intro o
      rcases h3 with h | h
      · split_ifs with hc
        · exact h o tp
        · rfl
      · subst h; simp
    have s4 : ∀ o : OrderInfo, g (if u > 0 then o.setPriceStopLimit u else o) = g o := by
      intro o
      rcases h4 with h | h
      · split_ifs with hc
        · exact h o u
        · rfl
      · subst h; simp
    have s5 : ∀ o : OrderInfo, g (if e > 0 then { o with time_expiration := e } else o) = g o := by
      intro o
      rcases h5 with h | h
      · split_ifs with hc
        · exact h o e
        · rfl
      · subst h; simp
    cases hf : s.orders.find? (fun o => o.ticket = t) with
    | none => simp [orderModify, hf]
    | some o =>
        simp only [orderModify, hf, List.map_map]
        refine List.map_congr_left fun q hq => ?_
        by_cases hqt : q.ticket = t
        · simp only [Function.comp, hqt, if_true]
          rw [s5, s4, s3, s2, s1]
        · simp [hqt]
  refine ⟨fun s t tp => hpos s t 0 tp _ (Or.inr rfl) (Or.inl setTakeProfit_stop_loss),
    fun s t sl => hpos s t sl 0 _ (Or.inl setStopLoss_take_profit) (Or.inr rfl),
    fun s t sl tp u e => hord s t 0 sl tp u e _ (Or.inr rfl)
      (Or.inl fun o v => by simp [OrderInfo.setStopLoss])
      (Or.inl fun o v => by simp [OrderInfo.setTakeProfit])
      (Or.inl fun o v => by simp [OrderInfo.setPriceStopLimit])
      (Or.inl fun o v => by simp),
    fun s t pr tp u e => hord s t pr 0 tp u e _
      (Or.inl fun o v => by simp [OrderInfo.setPriceOpen]) (Or.inr rfl)
      (Or.inl fun o v => by simp [OrderInfo.setTakeProfit])
      (Or.inl fun o v => by simp [OrderInfo.setPriceStopLimit])
      (Or.inl fun o v => by simp),
    fun s t pr sl u e => hord s t pr sl 0 u e _
      (Or.inl fun o v => by simp [OrderInfo.setPriceOpen])
      (Or.inl fun o v => by simp [OrderInfo.setStopLoss]) (Or.inr rfl)
      (Or.inl fun o v => by simp [OrderInfo.setPriceStopLimit])
      (Or.inl fun o v => by simp),
    fun s t pr sl tp e => hord s t pr sl tp 0 e _
      (Or.inl fun o v => by simp [OrderInfo.setPriceOpen])
      (Or.inl fun o v => by simp [OrderInfo.setStopLoss])
      (Or.inl fun o v => by simp [OrderInfo.setTakeProfit]) (Or.inr rfl)
      (Or.inl fun o v => by simp),
    fun s t pr sl tp u => hord s t pr sl tp u 0 _
      (Or.inl fun o v => by simp [OrderInfo.setPriceOpen])
      (Or.inl fun o v => by simp [OrderInfo.setStopLoss])
      (Or.inl fun o v => by simp [OrderInfo.setTakeProfit])
      (Or.inl fun o v => by simp [OrderInfo.setPriceStopLimit]) (Or.inr rfl)⟩

/-- Claim C4 (amended): `PositionModify` performs no stops-level validation
at all — for an existing ticket it always succeeds with retcode DONE and
mutates the position in place (setting the stop loss when `sl > 0` and the
take profit when `tp > 0`), regardless of the distance between the requested
levels and the current market; only a missing ticket fails (with
INVALID_ORDER), leaving the positions untouched. -/
theorem positionModify_no_stops_validation :
    (∀ (s : CTrade) (ticket : ℕ) (sl tp : ℚ) (pos : PositionInfo),
      s.positions.find? (fun p => p.ticket = ticket) = some pos →
      (positionModify s ticket sl tp).1 = true ∧
      (positionModify s ticket sl tp).2.last_result.retcode = RetCode.DONE ∧
      (positionModify s ticket sl tp).2.positions =
        s.positions.map (fun p =>
          if p.ticket = ticket then
            (if tp > 0 then (if sl > 0 then p.setStopLoss sl else p).setTakeProfit tp
             else (if sl > 0 then p.setStopLoss sl else p))
          else p) ∧
      (positionModify s ticket sl tp).2.account = s.account) ∧
    (∀ (s : CTrade) (ticket : ℕ) (sl tp : ℚ),
      s.positions.find? (fun p => p.ticket = ticket) = none →
      (positionModify s ticket sl tp).1 = false ∧
      (positionModify s ticket sl tp).2.last_result.retcode = RetCode.INVALID_ORDER ∧
      (positionModify s ticket sl tp).2.positions = s.positions) := by
  constructor
  · intro s ticket sl tp pos h
    simp only [positionModify, h]
    exact ⟨by trivial, by trivial, by trivial, by trivial⟩
  · intro s ticket sl tp h
    simp only [positionModify, h]
    exact ⟨by trivial, by trivial, by trivial⟩

/-- Counterexample to C4 as frozen: in a ledger whose EURUSD has
`stops_level = 50` and market bid 1.10000, modifying the position's stop
loss to 1.09999 — just 1 point below the bid, far inside the 50-point stops
level on the adverse side — succeeds with DONE and mutates the stop loss,
instead of failing with INVALID_STOPS and leaving it unchanged. -/
theorem positionModify_no_stops_validation_counterexample :
    ((Scenario.ledgerEURUSD.getSymbolInfo "EURUSD").map fun i => i.stops_level) =
      some 50 ∧
    ((Scenario.ledgerEURUSD.getSymbolInfo "EURUSD").map SymbolInfo.Bid) =
      some (11/10) ∧
    (109999/100000 : ℚ) < 11/10 ∧
    (11/10 : ℚ) - 109999/100000 < 50 * (1/100000) ∧
    (positionModify Scenario.ledgerEURUSD 1000 (109999/100000) 0).1 = true ∧
    (positionModify Scenario.ledgerEURUSD 1000 (109999/100000) 0).2.last_result.retcode =
      RetCode.DONE ∧
    (positionModify Scenario.ledgerEURUSD 1000
        (109999/100000) 0).2.positions.map (fun p => p.stop_loss) = [109999] ∧
    Scenario.ledgerEURUSD.positions.map (fun p => p.stop_loss) = [0] :=
  ⟨by with_unfolding_all rfl, by with_unfolding_all rfl, by norm_num, by norm_num,
   by with_unfolding_all rfl, by with_unfolding_all rfl, by with_unfolding_all rfl,
   by with_unfolding_all rfl⟩

/-- Witness for C4 (amended) on the concrete ledger. -/
theorem positionModify_no_stops_validation_witness :
    (positionModify Scenario.ledgerEURUSD 1000 (109999/100000) 0).1 = true ∧
    (positionModify Scenario.ledgerEURUSD 1000 (109999/100000) 0).2.last_result.retcode =
      RetCode.DONE := by
  have hsome : (Scenario.ledgerEURUSD.positions.find?
      (fun p => p.ticket = 1000)).isSome = true := by with_unfolding_all rfl
  have h : Scenario.ledgerEURUSD.positions.find? (fun p => p.ticket = 1000) =
      some ((Scenario.ledgerEURUSD.positions.find? (fun p => p.ticket = 1000)).get hsome) :=
    (Option.some_get hsome).symm
  have hm := positionModify_no_stops_validation.1 Scenario.ledgerEURUSD 1000
    (109999/100000) 0 _ h
  exact ⟨hm.1, hm.2.1⟩

end ModifyLemmas

/-! ## Equity bookkeeping (C1) -/

section EquityInvariant

open Trade Trade.CTrade

/-- Truncation of an integer-valued rational is the integer itself. -/
theorem qtrunc_intCast (z : ℤ) : qtrunc ((z : ℚ)) = z := by
  simp [qtrunc, Rat.num_intCast, Rat.den_intCast, Int.tdiv_one]

/-- The cast chain `static_cast<int64_t>(pos.Profit() * 1e6)` recovers the
stored fixed-point profit exactly (in the rational model of doubles). -/
theorem profitSummand_eq (p : PositionInfo) : profitSummand p = p.profit := by
  unfold profitSummand PositionInfo.Profit
  rw [div_mul_cancel₀ _ (by norm_num : (1000000 : ℚ) ≠ 0)]
  exact qtrunc_intCast _

/-- The ledger's unrealized-PnL accumulator equals the plain sum of the
stored position profits. -/
theorem foldl_profitSummand (l : List PositionInfo) :
    ∀ acc : ℤ, l.foldl (fun a p => a + profitSummand p) acc =
      l.foldl (fun a p => a + p.profit) acc := by
  induction l with
  | nil => intro acc; rfl
  | cons p rest ih => intro acc; simp only [List.foldl_cons, profitSummand_eq, ih]

/-- `CTrade::UpdateEquity` establishes the equity invariant outright. -/
theorem equityInv_updateEquityLedger (s : CTrade) : equityInv (updateEquityLedger s) := by
  unfold equityInv updateEquityLedger AccountInfo.updateEquity
  simp [foldl_profitSummand]

/-- Profit-preserving rewrites of the position list keep the profit sum. -/
theorem foldl_profit_map (l : List PositionInfo) (f : PositionInfo → PositionInfo)
    (hf : ∀ p, (f p).profit = p.profit) :
    ∀ acc : ℤ, (l.map f).foldl (fun a p => a + p.profit) acc =
      l.foldl (fun a p => a + p.profit) acc := by
  induction l with
  | nil => intro acc; rfl
  | cons p rest ih => intro acc; simp only [List.map_cons, List.foldl_cons, hf, ih]

/-- The equity invariant transports along states that keep the account and
rewrite the positions profit-preservingly. -/
theorem equityInv_map_positions (s s' : CTrade) (f : PositionInfo → PositionInfo)
    (ha : s'.account = s.account) (hp : s'.positions = s.positions.map f)
    (hf : ∀ p, (f p).profit = p.profit) (h : equityInv s) : equityInv s' := by
  unfold equityInv at h ⊢
  rw [ha, hp, foldl_profit_map _ _ hf]
  exact h

/-- `InternalPositionOpen` preserves the equity invariant. -/
theorem inv_internalPositionOpen (s : CTrade) (sym : String) (ty : PositionType)
    (v pr sl tp : ℚ) (cm : String) (h : equityInv s) :
    equityInv (internalPositionOpen s sym ty v pr sl tp cm).2 := by
  unfold internalPositionOpen
  split
  · exact h
  · exact equityInv_updateEquityLedger _

/-- `InternalPositionClose` preserves the equity invariant. -/
theorem inv_internalPositionClose (s : CTrade) (t : ℕ) (v pr : ℚ) (h : equityInv s) :
    equityInv (internalPositionClose s t v pr).2 := by
  unfold internalPositionClose
  split
  · exact h
  · split
    · exact h
    · exact equityInv_updateEquityLedger _

/-- `InternalOrderPlace` touches only orders and the counter. -/
theorem inv_internalOrderPlace (s : CTrade) (sym : String) (ty : OrderType)
    (v pr u sl tp : ℚ) (tt : OrderTypeTime) (e : ℤ) (cm : String) (h : equityInv s) :
    equityInv (internalOrderPlace s sym ty v pr u sl tp tt e cm).2 := by
  unfold internalOrderPlace
  split
  · exact h
  · exact h

/-- `ExecuteRequest` preserves the equity invariant. -/
theorem inv_executeRequest (s : CTrade) (req : MqlTradeRequest) (h : equityInv s) :
    equityInv (executeRequest s req).2 := by
  unfold executeRequest
  split
  · exact h
  · split
    · dsimp only
      split_ifs
      all_goals
        first
        | exact inv_internalPositionOpen _ _ _ _ _ _ _ _ h
        | exact h
    · dsimp only
      split_ifs
      all_goals exact inv_internalOrderPlace _ _ _ _ _ _ _ _ _ _ _ h
    · exact h

/-- `PositionOpen` preserves the equity invariant. -/
theorem inv_positionOpen (s : CTrade) (sym : String) (ot : OrderType)
    (v pr sl tp : ℚ) (cm : String) (h : equityInv s) :
    equityInv (positionOpen s sym ot v pr sl tp cm).2 := by
  unfold positionOpen
  dsimp only
  split_ifs with hc
  · exact inv_executeRequest _ _ h
  · exact h

/-- `PositionModify` preserves the equity invariant (it only rewrites stop
levels, never a profit). -/
theorem inv_positionModify (s : CTrade) (t : ℕ) (sl tp : ℚ) (h : equityInv s) :
    equityInv (positionModify s t sl tp).2 := by
  unfold positionModify
  split
  · exact h
  · refine equityInv_map_positions s _ _ rfl rfl ?_ h
    intro p
    by_cases hpt : p.ticket = t
    · simp only [hpt, if_true]
      split_ifs <;>
        simp [PositionInfo.setStopLoss, PositionInfo.setTakeProfit,
          PositionInfo.setTimeUpdate]
    · simp [hpt]

/-- `PositionClose` preserves the equity invariant. -/
theorem inv_positionClose (s : CTrade) (t : ℕ) (dv : ℕ) (h : equityInv s) :
    equityInv (positionClose s t dv).2 := by
  unfold positionClose
  split
  · exact h
  · dsimp only
    split
    · exact h
    · exact inv_internalPositionClose _ _ _ _ h

/-- `PositionClosePartial` preserves the equity invariant. -/
theorem inv_positionClosePartial (s : CTrade) (t : ℕ) (v : ℚ) (dv : ℕ)
    (h : equityInv s) : equityInv (positionClosePartial s t v dv).2 := by
  unfold positionClosePartial
  split
  · exact h
  · dsimp only
    split
    · exact inv_positionClose _ _ _ h
    · split
      · exact h
      · exact inv_internalPositionClose _ _ _ _ h

/-- `PositionCloseBy` preserves the equity invariant. -/
theorem inv_positionCloseBy (s : CTrade) (t1 t2 : ℕ) (h : equityInv s) :
    equityInv (positionCloseBy s t1 t2).2 := by
  unfold positionCloseBy
  split
  · exact h
  · exact h
  · dsimp only
    split
    · exact h
    · split
      · exact h
      · split
        · exact h
        · split
          · exact inv_internalPositionClose _ _ _ _
              (inv_internalPositionClose _ _ _ _ h)
          · exact inv_internalPositionClose _ _ _ _ h

/-- `OrderOpen` preserves the equity invariant. -/
theorem inv_orderOpen (s : CTrade) (sym : String) (ot : OrderType)
    (v lp sp sl tp : ℚ) (tt : OrderTypeTime) (e : ℤ) (cm : String)
    (h : equityInv s) :
    equityInv (orderOpen s sym ot v lp sp sl tp tt e cm).2 := by
  unfold orderOpen
  dsimp only
  split_ifs with hc
  · exact inv_executeRequest _ _ h
  · exact h

/-- `OrderModify` preserves the equity invariant. -/
theorem inv_orderModify (s : CTrade) (t : ℕ) (pr sl tp u : ℚ) (e : ℤ)
    (h : equityInv s) : equityInv (orderModify s t pr sl tp u e).2 := by
  unfold orderModify
  split
  · exact h
  · exact h

/-- `OrderDelete` preserves the equity invariant. -/
theorem inv_orderDelete (s : CTrade) (t : ℕ) (h : equityInv s) :
    equityInv (orderDelete s t).2 := by
  unfold orderDelete
  split
  · exact h
  · exact h

/-- `UpdatePrices` establishes the equity invariant (it ends in
`UpdateEquity`) or leaves the state untouched on an unknown symbol. -/
theorem inv_updatePrices (s : CTrade) (sym : String) (bid ask : ℚ) (ts : ℤ)
    (h : equityInv s) : equityInv (updatePrices s sym bid ask ts) := by
  unfold updatePrices
  split
  · exact h
  · split
    · exact h
    · exact equityInv_updateEquityLedger _

/-- Claim C1 (amended): after every public ledger command the account
equity equals the balance plus the plain, unconverted sum of the open
positions' fixed-point profits — the ledger's `UpdateEquity` sums
`position.profit` directly and never consults a `CurrencyConverter`. The
invariant holds in the freshly constructed ledger and is preserved by every
public command. -/
theorem equity_balance_plus_profit_sum :
    (∀ (b : ℚ) (c : String) (l : ℤ), equityInv (CTrade.ctor b c l)) ∧
    (∀ (cmd : Command) (s : CTrade), equityInv s → equityInv (applyCommand cmd s)) := by
  constructor
  · intro b c l
    unfold equityInv CTrade.ctor AccountInfo.ctor
    simp
  · intro cmd s h
    cases cmd with
    | positionOpen sym ot v pr sl tp cm => exact inv_positionOpen _ _ _ _ _ _ _ _ h
    | positionModify t sl tp => exact inv_positionModify _ _ _ _ h
    | positionClose t dv => exact inv_positionClose _ _ _ h
    | positionClosePartial t v dv => exact inv_positionClosePartial _ _ _ _ h
    | positionCloseBy t1 t2 => exact inv_positionCloseBy _ _ _ h
    | orderOpen sym ot v lp sp sl tp tt e cm =>
        exact inv_orderOpen _ _ _ _ _ _ _ _ _ _ _ h
    | orderModify t pr sl tp u e => exact inv_orderModify _ _ _ _ _ _ _ h
    | orderDelete t => exact inv_orderDelete _ _ h
    | updatePrices sym bid ask ts => exact inv_updatePrices _ _ _ _ _ h

/-- Counterexample to C1 as frozen: a USD account holding one EURGBP
position (profit currency GBP) after a price-update command has code equity
10010 USD — balance plus the raw 10-GBP profit — while the
specification's conversion rule (via a GBP/USD rate of 1.25) would give
10012.5. The code performs no conversion, so the claimed equality fails. -/
theorem equity_ignores_currency_conversion_counterexample :
    (applyCommand (Command.updatePrices "EURGBP" (90110/100000) (90120/100000) 2000000)
      Scenario.ledgerEURGBP).account.equity = 10010000000 ∧
    equityPerSpecWithConversion Scenario.gbpusdConv
      (applyCommand (Command.updatePrices "EURGBP" (90110/100000) (90120/100000) 2000000)
        Scenario.ledgerEURGBP) = some (20025/2) ∧
    ((10010000000 : ℤ) : ℚ) / 1000000 ≠ 20025/2 :=
  ⟨by with_unfolding_all rfl, by with_unfolding_all rfl, by norm_num⟩

/-- Witness for C1 (amended) on a concrete ledger and command. -/
theorem equity_balance_plus_profit_sum_witness :
    equityInv (applyCommand (Command.positionModify 1000 (109800/100000) 0)
      Scenario.ledgerEURUSD) :=
  equity_balance_plus_profit_sum.2 (Command.positionModify 1000 (109800/100000) 0)
    Scenario.ledgerEURUSD (by with_unfolding_all rfl)

end EquityInvariant

/-! ## Ticket issuance (C7) -/

section TicketStream

open Trade Trade.CTrade

/-- Replacing the elements of a list that satisfy a predicate by a fixed
element either keeps a ticket or introduces the replacement's ticket. -/
theorem mem_map_replace_ticket {α : Type} (tk : α → ℕ) (c : α → Prop)
    [DecidablePred c] (l : List α) (p0 : α) (t : ℕ)
    (ht : t ∈ (l.map (fun q => if c q then p0 else q)).map tk) :
    t ∈ l.map tk ∨ t = tk p0 := by
  rw [List.map_map] at ht
  obtain ⟨q, hq, hqt⟩ := List.mem_map.mp ht
  simp only [Function.comp_apply] at hqt
  by_cases h : c q
  · rw [if_pos h] at hqt
    exact Or.inr hqt.symm
  · rw [if_neg h] at hqt
    exact Or.inl (List.mem_map.mpr ⟨q, hq, hqt⟩)

/-- A ticket surviving a filter was present before the filter. -/
theorem mem_map_filter_ticket {α : Type} (tk : α → ℕ) (c : α → Bool)
    (l : List α) (t : ℕ) (ht : t ∈ (l.filter c).map tk) : t ∈ l.map tk := by
  obtain ⟨q, hq, hqt⟩ := List.mem_map.mp ht
  exact List.mem_map.mpr ⟨q, (List.mem_filter.mp hq).1, hqt⟩

/-- A map that preserves every element's ticket preserves the ticket list. -/
theorem map_ticket_of_preserve {α : Type} (tk : α → ℕ) (l : List α)
    (f : α → α) (hf : ∀ q, tk (f q) = tk q) : (l.map f).map tk = l.map tk := by
  rw [List.map_map]
  exact List.map_congr_left fun q _ => hf q

/-- `ticketEvolution` is reflexive. -/
theorem tkEvo_refl (s : CTrade) : ticketEvolution s s :=
  ⟨le_refl _, fun hb => ⟨hb, fun _ ht => Or.inl ht⟩⟩

/-- `ticketEvolution` composes across consecutive commands. -/
theorem tkEvo_trans (s1 s2 s3 : CTrade) (h23 : ticketEvolution s2 s3)
    (h12 : ticketEvolution s1 s2) : ticketEvolution s1 s3 := by
  refine ⟨le_trans h12.1 h23.1, fun hb => ?_⟩
  obtain ⟨hb2, hm2⟩ := h12.2 hb
  obtain ⟨hb3, hm3⟩ := h23.2 hb2
  refine ⟨hb3, fun t ht => ?_⟩
  rcases hm3 t ht with h | h
  · rcases hm2 t h with h' | h'
    · exact Or.inl h'
    · exact Or.inr ⟨h'.1, lt_of_lt_of_le h'.2 h23.1⟩
  · exact Or.inr ⟨le_trans h12.1 h.1, h.2⟩

/-- A step that keeps the counter and only drops or keeps tickets evolves
the ticket state. -/
theorem tkEvo_of_subset (s s' : CTrade) (h1 : s'.next_ticket = s.next_ticket)
    (h2 : ∀ t ∈ allTickets s', t ∈ allTickets s) : ticketEvolution s s' := by
  refine ⟨le_of_eq h1.symm, fun hb => ⟨?_, fun t ht => Or.inl (h2 t ht)⟩⟩
  intro t ht
  rw [h1]
  exact hb t (h2 t ht)

/-- A step that draws exactly one fresh ticket from the counter evolves the
ticket state. -/
theorem tkEvo_of_issue (s s' : CTrade) (h1 : s'.next_ticket = s.next_ticket + 1)
    (h2 : ∀ t ∈ allTickets s', t ∈ allTickets s ∨ t = s.next_ticket) :
    ticketEvolution s s' := by
  refine ⟨by omega, fun hb => ⟨?_, ?_⟩⟩
  · intro t ht
    rcases h2 t ht with h | h
    · have := hb t h
      omega
    · omega
  · intro t ht
    rcases h2 t ht with h | h
    · exact Or.inl h
    · exact Or.inr ⟨by omega, by omega⟩

/-- Changing only non-ticket fields of the base state keeps the evolution
relation (the request/result bookkeeping fields carry no tickets). -/
theorem tkEvo_of_fields (s s2 s' : CTrade) (h : ticketEvolution s2 s')
    (hnt : s2.next_ticket = s.next_ticket)
    (hat : allTickets s2 = allTickets s) :
    ticketEvolution s s' := by
  obtain ⟨h1, h2⟩ := h
  refine ⟨hnt ▸ h1, fun hb => ?_⟩
  have hb2 : ticketsBounded s2 := by
    intro t ht
    rw [hnt]
    exact hb t (hat ▸ ht)
  obtain ⟨hb', hm⟩ := h2 hb2
  refine ⟨hb', fun t ht => ?_⟩
  rcases hm t ht with h | h
  · exact Or.inl (hat ▸ h)
  · exact Or.inr ⟨hnt ▸ h.1, h.2⟩

/-- `UpdateEquity` touches only the account, never a ticket. -/
theorem allTickets_updateEquityLedger (s : CTrade) :
    allTickets (updateEquityLedger s) = allTickets s := rfl

/-- `InternalPositionOpen` draws at most the single ticket `next_ticket`. -/
theorem tkEvo_internalPositionOpen (s : CTrade) (sym : String)
    (ty : PositionType) (v pr sl tp : ℚ) (cm : String) :
    ticketEvolution s (internalPositionOpen s sym ty v pr sl tp cm).2 := by
  unfold internalPositionOpen
  split
  · exact tkEvo_refl s
  · dsimp only
    split
    · apply tkEvo_of_issue
      · rfl
      · intro t ht
        rw [allTickets_updateEquityLedger] at ht
        simp only [allTickets, List.mem_append] at ht ⊢
        rcases ht with ((hp | ho) | hd) | hh
        · rcases mem_map_replace_ticket _ _ _ _ _ hp with h | h
          · exact Or.inl (Or.inl (Or.inl (Or.inl h)))
          · exact Or.inr h
        · exact Or.inl (Or.inl (Or.inl (Or.inr ho)))
        · exact Or.inl (Or.inl (Or.inr hd))
        · exact Or.inl (Or.inr hh)
    · apply tkEvo_of_issue
      · rfl
      · intro t ht
        rw [allTickets_updateEquityLedger] at ht
        simp only [allTickets, List.mem_append, List.map_append, List.map_cons,
          List.map_nil, List.mem_cons, List.not_mem_nil, or_false] at ht ⊢
        rcases ht with ((hp | ho) | hd) | hh
        · rcases hp with hp | hp
          · exact Or.inl (Or.inl (Or.inl (Or.inl hp)))
          · exact Or.inr hp
        · exact Or.inl (Or.inl (Or.inl (Or.inr ho)))
        · exact Or.inl (Or.inl (Or.inr hd))
        · exact Or.inl (Or.inr hh)

/-- `InternalOrderPlace` draws at most the single ticket `next_ticket`. -/
theorem tkEvo_internalOrderPlace (s : CTrade) (sym : String) (ty : OrderType)
    (v pr u sl tp : ℚ) (tt : OrderTypeTime) (e : ℤ) (cm : String) :
    ticketEvolution s (internalOrderPlace s sym ty v pr u sl tp tt e cm).2 := by
  unfold internalOrderPlace
  split
  · exact tkEvo_refl s
  · dsimp only
    split
    · apply tkEvo_of_issue
      · rfl
      · intro t ht
        simp only [allTickets, List.mem_append] at ht ⊢
        rcases ht with ((hp | ho) | hd) | hh
        · exact Or.inl (Or.inl (Or.inl (Or.inl hp)))
        · rcases mem_map_replace_ticket _ _ _ _ _ ho with h | h
          · exact Or.inl (Or.inl (Or.inl (Or.inr h)))
          · exact Or.inr h
        · exact Or.inl (Or.inl (Or.inr hd))
        · exact Or.inl (Or.inr hh)
    · apply tkEvo_of_issue
      · rfl
      · intro t ht
        simp only [allTickets, List.mem_append, List.map_append, List.map_cons,
          List.map_nil, List.mem_cons, List.not_mem_nil, or_false] at ht ⊢
        rcases ht with ((hp | ho) | hd) | hh
        · exact Or.inl (Or.inl (Or.inl (Or.inl hp)))
        · rcases ho with ho | ho
          · exact Or.inl (Or.inl (Or.inl (Or.inr ho)))
          · exact Or.inr ho
        · exact Or.inl (Or.inl (Or.inr hd))
        · exact Or.inl (Or.inr hh)

/-- `InternalPositionClose` draws exactly one fresh deal ticket and only
rewrites or drops position tickets that already existed. -/
theorem tkEvo_internalPositionClose (s : CTrade) (tkt : ℕ) (v pr : ℚ) :
    ticketEvolution s (internalPositionClose s tkt v pr).2 := by
  unfold internalPositionClose
  split
  · exact tkEvo_refl s
  · rename_i pos0 hfind
    split
    · exact tkEvo_refl s
    · dsimp only
      have hmem : pos0 ∈ s.positions := List.mem_of_find?_eq_some hfind
      split
      · apply tkEvo_of_issue
        · rfl
        · intro t ht
          simp only [allTickets, updateEquityLedger, closeFullBranch,
            List.mem_append, List.map_append, List.map_cons, List.map_nil,
            List.mem_cons, List.not_mem_nil, or_false] at ht ⊢
          rcases ht with ((hp | ho) | hd) | hh
          · have hp' := mem_map_filter_ticket _ _ _ _ hp
            rcases mem_map_replace_ticket _ _ _ _ _ hp' with h | h
            · exact Or.inl (Or.inl (Or.inl (Or.inl h)))
            · refine Or.inl (Or.inl (Or.inl (Or.inl ?_)))
              rw [h]
              exact List.mem_map.mpr ⟨pos0, hmem, rfl⟩
          · exact Or.inl (Or.inl (Or.inl (Or.inr ho)))
          · rcases hd with hd | hd
            · exact Or.inl (Or.inl (Or.inr hd))
            · exact Or.inr hd
          · exact Or.inl (Or.inr hh)
      · apply tkEvo_of_issue
        · rfl
        · intro t ht
          simp only [allTickets, updateEquityLedger, closePartialBranch,
            List.mem_append, List.map_append, List.map_cons, List.map_nil,
            List.mem_cons, List.not_mem_nil, or_false] at ht ⊢
          rcases ht with ((hp | ho) | hd) | hh
          · rcases mem_map_replace_ticket _ _ _ _ _ hp with h | h
            · rcases mem_map_replace_ticket _ _ _ _ _ h with h' | h'
              · exact Or.inl (Or.inl (Or.inl (Or.inl h')))
              · refine Or.inl (Or.inl (Or.inl (Or.inl ?_)))
                rw [h']
                exact List.mem_map.mpr ⟨pos0, hmem, rfl⟩
            · refine Or.inl (Or.inl (Or.inl (Or.inl ?_)))
              rw [h]
              exact List.mem_map.mpr ⟨pos0, hmem, rfl⟩
          · exact Or.inl (Or.inl (Or.inl (Or.inr ho)))
          · rcases hd with hd | hd
            · exact Or.inl (Or.inl (Or.inr hd))
            · exact Or.inr hd
          · exact Or.inl (Or.inr hh)

/-- `ExecuteRequest` evolves the ticket state. -/
theorem tkEvo_executeRequest (s : CTrade) (req : MqlTradeRequest) :
    ticketEvolution s (executeRequest s req).2 := by
  unfold executeRequest
  split
  · exact tkEvo_refl s
  · split
    · dsimp only
      split_ifs
      all_goals
        first
        | exact tkEvo_internalPositionOpen _ _ _ _ _ _ _ _
        | exact tkEvo_refl s
    · dsimp only
      split_ifs
      all_goals exact tkEvo_internalOrderPlace _ _ _ _ _ _ _ _ _ _ _
    · exact tkEvo_refl s

/-- `PositionOpen` evolves the ticket state. -/
theorem tkEvo_positionOpen (s : CTrade) (sym : String) (ot : OrderType)
    (v pr sl tp : ℚ) (cm : String) :
    ticketEvolution s (positionOpen s sym ot v pr sl tp cm).2 := by
  unfold positionOpen
  dsimp only
  split_ifs with hc
  · exact tkEvo_of_fields _ _ _ (tkEvo_executeRequest _ _) rfl rfl
  · exact tkEvo_refl s

/-- `PositionModify` rewrites stop levels only; tickets are untouched. -/
theorem tkEvo_positionModify (s : CTrade) (tkt : ℕ) (sl tp : ℚ) :
    ticketEvolution s (positionModify s tkt sl tp).2 := by
  unfold positionModify
  split
  · exact tkEvo_refl s
  · dsimp only
    apply tkEvo_of_subset
    · rfl
    · intro t ht
      simp only [allTickets, List.mem_append] at ht ⊢
      rcases ht with ((hp | ho) | hd) | hh
      · rw [map_ticket_of_preserve] at hp
        · exact Or.inl (Or.inl (Or.inl hp))
        · intro q
          dsimp only
          by_cases hq : q.ticket = tkt
          · rw [if_pos hq]
            split_ifs <;> rfl
          · rw [if_neg hq]
      · exact Or.inl (Or.inl (Or.inr ho))
      · exact Or.inl (Or.inr hd)
      · exact Or.inr hh

/-- `PositionClose` evolves the ticket state. -/
theorem tkEvo_positionClose (s : CTrade) (tkt : ℕ) (dv : ℕ) :
    ticketEvolution s (positionClose s tkt dv).2 := by
  unfold positionClose
  split
  · exact tkEvo_refl s
  · dsimp only
    split
    · exact tkEvo_refl s
    · exact tkEvo_of_fields _ _ _ (tkEvo_internalPositionClose _ _ _ _) rfl rfl

/-- `PositionClosePartial` evolves the ticket state. -/
theorem tkEvo_positionClosePartial (s : CTrade) (tkt : ℕ) (v : ℚ) (dv : ℕ) :
    ticketEvolution s (positionClosePartial s tkt v dv).2 := by
  unfold positionClosePartial
  split
  · exact tkEvo_refl s
  · dsimp only
    split
    · exact tkEvo_positionClose _ _ _
    · split
      · exact tkEvo_refl s
      · exact tkEvo_of_fields _ _ _ (tkEvo_internalPositionClose _ _ _ _) rfl rfl

/-- `PositionCloseBy` evolves the ticket state (two chained closes). -/
theorem tkEvo_positionCloseBy (s : CTrade) (t1 t2 : ℕ) :
    ticketEvolution s (positionCloseBy s t1 t2).2 := by
  unfold positionCloseBy
  split
  · exact tkEvo_refl s
  · exact tkEvo_refl s
  · dsimp only
    split
    · exact tkEvo_refl s
    · split
      · exact tkEvo_refl s
      · split
        · exact tkEvo_refl s
        · split
          · exact tkEvo_trans _ _ _
              (tkEvo_internalPositionClose _ _ _ _)
              (tkEvo_of_fields _ _ _ (tkEvo_internalPositionClose _ _ _ _) rfl rfl)
          · exact tkEvo_of_fields _ _ _ (tkEvo_internalPositionClose _ _ _ _) rfl rfl

/-- `OrderOpen` evolves the ticket state. -/
theorem tkEvo_orderOpen (s : CTrade) (sym : String) (ot : OrderType)
    (v lp sp sl tp : ℚ) (tt : OrderTypeTime) (e : ℤ) (cm : String) :
    ticketEvolution s (orderOpen s sym ot v lp sp sl tp tt e cm).2 := by
  unfold orderOpen
  dsimp only
  split_ifs with hc
  · exact tkEvo_of_fields _ _ _ (tkEvo_executeRequest _ _) rfl rfl
  · exact tkEvo_refl s

/-- `OrderModify` rewrites order fields only; tickets are untouched. -/
theorem tkEvo_orderModify (s : CTrade) (tkt : ℕ) (pr sl tp u : ℚ) (e : ℤ) :
    ticketEvolution s (orderModify s tkt pr sl tp u e).2 := by
  unfold orderModify
  split
  · exact tkEvo_refl s
  · dsimp only
    apply tkEvo_of_subset
    · rfl
    · intro t ht
      simp only [allTickets, List.mem_append] at ht ⊢
      rcases ht with ((hp | ho) | hd) | hh
      · exact Or.inl (Or.inl (Or.inl hp))
      · rw [map_ticket_of_preserve] at ho
        · exact Or.inl (Or.inl (Or.inr ho))
        · intro q
          dsimp only
          by_cases hq : q.ticket = tkt
          · rw [if_pos hq]
            split_ifs <;> rfl
          · rw [if_neg hq]
      · exact Or.inl (Or.inr hd)
      · exact Or.inr hh

/-- `OrderDelete` moves an existing ticket to the history; no new ticket. -/
theorem tkEvo_orderDelete (s : CTrade) (tkt : ℕ) :
    ticketEvolution s (orderDelete s tkt).2 := by
  unfold orderDelete
  split
  · exact tkEvo_refl s
  · rename_i order hfind
    have hmem : order ∈ s.orders := List.mem_of_find?_eq_some hfind
    dsimp only
    apply tkEvo_of_subset
    · rfl
    · intro t ht
      simp only [allTickets, List.mem_append, List.map_append, List.map_cons,
        List.map_nil, List.mem_cons, List.not_mem_nil, or_false] at ht ⊢
      rcases ht with ((hp | ho) | hd) | hh
      · exact Or.inl (Or.inl (Or.inl hp))
      · exact Or.inl (Or.inl (Or.inr (mem_map_filter_ticket _ _ _ _ ho)))
      · exact Or.inl (Or.inr hd)
      · rcases hh with hh | hh
        · exact Or.inr hh
        · refine Or.inl (Or.inl (Or.inr ?_))
          rw [hh]
          exact List.mem_map.mpr ⟨order, hmem, rfl⟩

/-- `UpdatePrices` rewrites prices only; tickets are untouched. -/
theorem tkEvo_updatePrices (s : CTrade) (sym : String) (bid ask : ℚ)
    (ts : ℤ) : ticketEvolution s (updatePrices s sym bid ask ts) := by
  unfold updatePrices
  split
  · exact tkEvo_refl s
  · split
    · exact tkEvo_refl s
    · dsimp only
      split
      all_goals
        apply tkEvo_of_subset
        · rfl
        · intro t ht
          rw [allTickets_updateEquityLedger] at ht
          simp only [allTickets, List.mem_append] at ht ⊢
          rcases ht with ((hp | ho) | hd) | hh
          · rw [map_ticket_of_preserve] at hp
            · exact Or.inl (Or.inl (Or.inl hp))
            · intro q
              dsimp only
              by_cases hq : q.symbol = sym
              · rw [if_pos hq]
                rfl
              · rw [if_neg hq]
          · exact Or.inl (Or.inl (Or.inr ho))
          · exact Or.inl (Or.inr hd)
          · exact Or.inr hh

/-- Claim C7: all tickets are drawn from the one counter `next_ticket_`,
initialised to 1000; the counter never decreases under any public command,
every recorded ticket stays below the counter, and each ticket present
after a command is either an old ticket or freshly drawn from the interval
between the old and the new counter values — so every freshly issued
position, order or deal ticket is strictly greater than all previously
recorded tickets. -/
theorem ticket_counter_single_stream :
    (∀ (b : ℚ) (c : String) (l : ℤ),
      (CTrade.ctor b c l).next_ticket = 1000 ∧ ticketsBounded (CTrade.ctor b c l)) ∧
    (∀ (cmd : Command) (s : CTrade), ticketEvolution s (applyCommand cmd s)) := by
  constructor
  · intro b c l
    refine ⟨rfl, ?_⟩
    intro t ht
    simp [allTickets, CTrade.ctor] at ht
  · intro cmd s
    cases cmd with
    | positionOpen sym ot v pr sl tp cm => exact tkEvo_positionOpen _ _ _ _ _ _ _ _
    | positionModify t sl tp => exact tkEvo_positionModify _ _ _ _
    | positionClose t dv => exact tkEvo_positionClose _ _ _
    | positionClosePartial t v dv => exact tkEvo_positionClosePartial _ _ _ _
    | positionCloseBy t1 t2 => exact tkEvo_positionCloseBy _ _ _
    | orderOpen sym ot v lp sp sl tp tt e cm =>
        exact tkEvo_orderOpen _ _ _ _ _ _ _ _ _ _ _
    | orderModify t pr sl tp u e => exact tkEvo_orderModify _ _ _ _ _ _ _
    | orderDelete t => exact tkEvo_orderDelete _ _
    | updatePrices sym bid ask ts => exact tkEvo_updatePrices _ _ _ _ _

/-- Witness for C7 on a concrete ledger and command. -/
theorem ticket_counter_single_stream_witness :
    (CTrade.ctor 10000 "USD" 100).next_ticket = 1000 ∧
    ticketEvolution Scenario.ledgerEURUSD
      (applyCommand (Command.positionClose 1000 0) Scenario.ledgerEURUSD) :=
  ⟨(ticket_counter_single_stream.1 10000 "USD" 100).1,
   ticket_counter_single_stream.2 (Command.positionClose 1000 0) Scenario.ledgerEURUSD⟩

end TicketStream

/-! ## WAL append/read roundtrip (C8) -/

section WALRoundtrip

open WAL

/-- `fromLE4` inverts the little-endian byte split of a `uint32`. -/
theorem fromLE4_toLE4 (n : ℕ) (h : n < 4294967296) :
    fromLE4 (n % 256) (n / 256 % 256) (n / 65536 % 256) (n / 16777216 % 256) = n := by
  unfold fromLE4
  omega

/-- One CRC bit-step stays inside 32 bits. -/
theorem crcStep_lt (crc : ℕ) (h : crc < 2 ^ 32) : crcStep crc < 2 ^ 32 := by
  unfold crcStep
  apply Nat.xor_lt_two_pow
  · calc crc >>> 1 = crc / 2 ^ 1 := Nat.shiftRight_eq_div_pow crc 1
    _ ≤ crc := Nat.div_le_self crc 2
    _ < 2 ^ 32 := h
  · split
    · decide
    · decide

/-- A CRC table entry stays inside 32 bits. -/
theorem crcTableEntry_lt (i : ℕ) (h : i < 2 ^ 32) : crcTableEntry i < 2 ^ 32 := by
  unfold crcTableEntry
  exact crcStep_lt _ (crcStep_lt _ (crcStep_lt _ (crcStep_lt _ (crcStep_lt _
    (crcStep_lt _ (crcStep_lt _ (crcStep_lt _ h)))))))

/-- The CRC accumulator stays inside 32 bits along the fold. -/
theorem crcFold_lt (data : List ℕ) :
    ∀ acc : ℕ, acc < 2 ^ 32 →
      data.foldl (fun crc b => (crc >>> 8) ^^^ crcTableEntry ((crc ^^^ b) % 256)) acc
        < 2 ^ 32 := by
  induction data with
  | nil => intro acc h; simpa using h
  | cons b rest ih =>
      intro acc h
      rw [List.foldl_cons]
      apply ih
      apply Nat.xor_lt_two_pow
      · calc acc >>> 8 = acc / 2 ^ 8 := Nat.shiftRight_eq_div_pow acc 8
        _ ≤ acc := Nat.div_le_self acc 256
        _ < 2 ^ 32 := h
      · exact crcTableEntry_lt _ (lt_trans (Nat.mod_lt _ (by norm_num)) (by norm_num))

/-- `calculate_crc32` always fits the `uint32` CRC field. -/
theorem calculate_crc32_lt (data : List ℕ) : calculate_crc32 data < 4294967296 := by
  have h : calculate_crc32 data < 2 ^ 32 := by
    unfold calculate_crc32
    exact Nat.xor_lt_two_pow (crcFold_lt data _ (by norm_num)) (by norm_num)
  simpa using h

/-- Cons normal form of one documented-layout record followed by more bytes. -/
theorem appendAllDocumented_cons (t : ℕ) (d : List ℕ) (rest : List (ℕ × List ℕ)) :
    appendAllDocumented ((t, d) :: rest) =
      87 :: 84 :: 81 :: 72 :: (t % 256) ::
      (d.length % 256) :: (d.length / 256 % 256) ::
      (d.length / 65536 % 256) :: (d.length / 16777216 % 256) ::
      (calculate_crc32 d % 256) :: (calculate_crc32 d / 256 % 256) ::
      (calculate_crc32 d / 65536 % 256) :: (calculate_crc32 d / 16777216 % 256) ::
      (d ++ appendAllDocumented rest) := by
  simp [appendAllDocumented, appendBytesDocumented, toLE4, MAGIC]

/-- Each documented-layout record contributes at least its header. -/
theorem appendAllDocumented_length (entries : List (ℕ × List ℕ)) :
    entries.length ≤ (appendAllDocumented entries).length := by
  induction entries with
  | nil => simp [appendAllDocumented]
  | cons e rest ih =>
      obtain ⟨t, d⟩ := e
      rw [appendAllDocumented_cons]
      simp only [List.length_cons, List.length_append]
      omega

/-- The documented-layout scan loop recovers an appended entry sequence
verbatim, for any fuel covering the record count. -/
theorem readLoopDocumented_ok (entries : List (ℕ × List ℕ)) :
    ∀ fuel : ℕ, (∀ e ∈ entries, entryWF e) → entries.length ≤ fuel →
      readLoopDocumented fuel (appendAllDocumented entries) = .ok entries := by
  induction entries with
  | nil =>
      intro fuel _ _
      cases fuel <;> rfl
  | cons e rest ih =>
      intro fuel hWF hf
      obtain ⟨t, d⟩ := e
      cases fuel with
      | zero => simp at hf
      | succ f =>
          have hWFe : entryWF (t, d) := hWF _ (List.mem_cons_self _ _)
          have htyp : t < 256 := hWFe.1
          have hlen : d.length < 4294967296 := hWFe.2
          rw [appendAllDocumented_cons]
          simp only [readLoopDocumented]
          rw [if_neg (by decide : ¬(fromLE4 87 84 81 72 ≠ MAGIC))]
          rw [fromLE4_toLE4 _ hlen, fromLE4_toLE4 _ (calculate_crc32_lt d)]
          rw [if_neg (by rw [List.length_append]; omega :
            ¬((d ++ appendAllDocumented rest).length < d.length))]
          rw [List.take_left, List.drop_left]
          rw [if_neg (by simp : ¬(0 < d.length ∧ calculate_crc32 d ≠ calculate_crc32 d))]
          rw [ih f (fun e he => hWF e (List.mem_cons_of_mem _ he))
            (by simpa using Nat.lt_succ_iff.mp (lt_of_lt_of_le (Nat.lt_succ_self _)
              (by simpa using hf)))]
          dsimp only
          rw [Nat.mod_eq_of_lt htyp]

/-- Claim C8 (code bug): the padded 16-byte `WALEntryHeader` is transferred
as its first `SIZE = 13` bytes, so the on-disk record is
`[magic:4][type:1][pad:3][length:4][crc-low:1][payload]` instead of the
documented `[magic:4][type:1][length:4][crc32:4][payload]`, and `read_all`
compares the computed CRC against a stored field whose upper three bytes
are uninitialised stack memory. Concretely, appending one `type = 1` record
with payload `[0xAA]` (padding bytes 0, residual stack garbage 0) makes
`read_all` fail with a CRC mismatch rather than return the entry, and the
written bytes differ from the documented layout; under the documented
packed layout the append/read_all roundtrip recovers every well-formed
entry sequence exactly. -/
theorem wal_append_read_roundtrip :
    read_all (appendBytes 1 [170] [0, 0, 0]) 0 = .error .crcMismatch ∧
    appendBytes 1 [170] [0, 0, 0] ≠ appendBytesDocumented 1 [170] ∧
    ∀ entries : List (ℕ × List ℕ), (∀ e ∈ entries, entryWF e) →
      read_allDocumented (appendAllDocumented entries) = .ok entries := by
  refine ⟨by decide, by decide, ?_⟩
  intro entries hWF
  unfold read_allDocumented
  exact readLoopDocumented_ok entries _ hWF (appendAllDocumented_length entries)

/-- Witness for C8's roundtrip part on a concrete two-entry sequence. -/
theorem wal_append_read_roundtrip_witness :
    (∀ e ∈ [(1, [170]), (2, [1, 2, 3, 4])], entryWF e) ∧
    read_allDocumented (appendAllDocumented [(1, [170]), (2, [1, 2, 3, 4])]) =
      .ok [(1, [170]), (2, [1, 2, 3, 4])] :=
  ⟨by decide, wal_append_read_roundtrip.2.2 _ (by decide)⟩

end WALRoundtrip

end HQT
